import Mathlib

/-!
# Verification of the vCDR benchmarking harness core

Shallow embedding of the conversation-turn orchestrator of the
`vCDR_eval_webapp` repository, together with proofs of the behavioural
properties stated in its specification.

The embedding follows the JavaScript source:

* `src/client/lib/SimulatedUser.js` — the simulated respondent
  (`generateResponse`, `shouldRespond`, `isConversationEnded`,
  `extractLatestInterviewerMessage`);
* `src/client/lib/BenchmarkingService.js` — the turn orchestrator
  (`updateEventLog`, `monitorConversation`, `endRun`, `addToTranscript`,
  `logEvent`, `saveRunToServer`);
* `src/server/lib/database.js` — `saveBenchmarkRun`, `getBenchmarkRun`;
* `src/server.js` — the `PUT /api/benchmark-runs/:run_id` handler.

JavaScript strings are modelled as Lean `String`, absent (`undefined`)
fields as `Option`, JSON values as the inductive `Json` below (numbers
restricted to integers: the claims under study never exercise
non-integral numbers), `Date.now`/`crypto.randomUUID` as a monotone
`Nat` counter, and the two network calls made by the respondent
(prompt-config fetch and chat-completion call) as explicit oracle
arguments, with a thrown exception represented by `Except.error`.
-/

/-! ## JavaScript string primitives

`String.prototype.toLowerCase`, `String.prototype.includes` and
`String.prototype.trim`, modelled character-listwise so that every
definition reduces in the kernel.  Lowercasing is ASCII-only, which is
faithful on every string the program compares (the configured
termination phrases are ASCII literals). -/

/-- ASCII lower-casing of a single character (JS `toLowerCase` restricted
to ASCII, which covers all comparisons the source performs). -/
def asciiLowerChar (c : Char) : Char :=
  if 'A' ≤ c ∧ c ≤ 'Z' then Char.ofNat (c.toNat + 32) else c

/-- ASCII lower-casing of a string. -/
def asciiLower (s : String) : String :=
  ⟨s.data.map asciiLowerChar⟩

/-- Does `pat` occur at the head of `s`? -/
def matchHead : List Char → List Char → Bool
  | [], _ => true
  | _ :: _, [] => false
  | p :: ps, c :: cs => p == c && matchHead ps cs

/-- Does `pat` occur somewhere in `s`?  (JS `String.prototype.includes`.) -/
def hasSub (pat : List Char) : List Char → Bool
  | [] => matchHead pat []
  | c :: cs => matchHead pat (c :: cs) || hasSub pat cs

/-- JS `s.includes(pat)`. -/
def jsIncludes (s pat : String) : Bool :=
  hasSub pat.data s.data

/-- JS `String.prototype.trim` (drop whitespace at both ends). -/
def jsTrim (s : String) : String :=
  ⟨((s.data.dropWhile Char.isWhitespace).reverse.dropWhile
      Char.isWhitespace).reverse⟩

/-- `pat` occurs in `s` as a contiguous substring (propositional form,
used to state the substring-match claims non-definitionally). -/
def SubStr (pat s : String) : Prop :=
  ∃ l r, s.data = l ++ pat.data ++ r

/-! ## Conversation events

`ConversationEvent` (spec §3): opaque realtime-API record.  The fields
the orchestrator core inspects are `type`, `event_id`, `transcript` and
`text`; absent fields are `none`.  The event list handed to the
orchestrator is most-recent-first (the host UI builds it with
`setEvents((prev) => [event, ...prev])`), so `slice(0, 10)` — `take 10`
here — selects the most recent ten events. -/

structure ConversationEvent where
  type : String
  event_id : Option String := none
  transcript : Option String := none
  text : Option String := none
deriving Repr, DecidableEq

/-- JS truthiness of an optional string field (`undefined` and `""` are
falsy). -/
def truthyStr : Option String → Bool
  | none => false
  | some s => !s.isEmpty

/-! ## Simulated respondent: event-list predicates

From `src/client/lib/SimulatedUser.js` (operative variant, the one the
orchestrator's `'That completes the interview'` cue log matches). -/

/-- The configured termination phrase (already lower-case in the source). -/
def terminationPhrase : String := "that completes the interview"

/-- `SimulatedUser.isConversationEnded` (SimulatedUser.js:795-811):
for each of the first ten events, `content` is the `transcript` field
when truthy and `''` otherwise; return `true` on the first event whose
lower-cased content contains the termination phrase. -/
def isConversationEnded (events : List ConversationEvent) : Bool :=
  (events.take 10).any fun e =>
    let content := (e.transcript.getD "")
    jsIncludes (asciiLower content) terminationPhrase

/-- The audio-transcript-completed discriminator. -/
def transcriptDoneType : String := "response.output_audio_transcript.done"

/-- `SimulatedUser.extractLatestInterviewerMessage`
(SimulatedUser.js:744-763): walk the first ten events; for each, set
`content` to the transcript when the type matches the discriminator and
the transcript is truthy; return `content.trim()` at the first event
where that trim is non-empty, else `''`. -/
def extractFrom : List ConversationEvent → String
  | [] => ""
  | e :: rest =>
    let content :=
      if e.type == transcriptDoneType && truthyStr e.transcript then
        e.transcript.getD ""
      else ""
    if !(jsTrim content).isEmpty then jsTrim content else extractFrom rest

def extractLatestInterviewerMessage (events : List ConversationEvent) : String :=
  extractFrom (events.take 10)

/-- `SimulatedUser.shouldRespond` (SimulatedUser.js:770-788): `false`
when inactive or the event list is empty; otherwise the source inspects
`events[events.length-1]` but returns `true` on both branches. -/
def shouldRespond (isActive : Bool) (events : List ConversationEvent) : Bool :=
  if !isActive || events.isEmpty then false
  else
    match events.getLast? with
    | some e => if e.type == "response.output_audio.done" then true else true
    | none => true

/-! ### Quick sanity examples (concrete evaluations of the embedding) -/

example : isConversationEnded
    [{ type := "t", transcript := some "Well, THAT Completes the Interview." }] = true := by
  decide

example : isConversationEnded [{ type := "t", text := some "that completes the interview" }] = false := by
  decide

example : extractLatestInterviewerMessage
    [{ type := "response.output_audio_transcript.done", transcript := some "  Tell me about yourself.  " }]
    = "Tell me about yourself." := by
  decide

example : shouldRespond true [{ type := "x" }] = true := by decide
example : shouldRespond false [{ type := "x" }] = false := by decide

/-! ## JSON values

Model of the JSON data handled by `JSON.stringify` / `JSON.parse` as the
persistence layer uses them.  Arrays and objects are dedicated mutual
inductives (`JsonA`, `JsonO`) so that all recursion over values is
structural and every definition reduces in the kernel.  Numbers are
restricted to integers: the persisted payloads under study carry only
strings, arrays and objects, and IEEE-754 doubles are outside a shallow
embedding. -/

mutual
inductive Json where
  | null
  | bool (b : Bool)
  | num (n : Int)
  | str (s : String)
  | arr (a : JsonA)
  | obj (o : JsonO)
deriving DecidableEq

inductive JsonA where
  | nil
  | cons (hd : Json) (tl : JsonA)
deriving DecidableEq

inductive JsonO where
  | nil
  | cons (key : String) (val : Json) (tl : JsonO)
deriving DecidableEq
end

/-- Number of elements of a JSON array (JS `Array.prototype.length`). -/
def JsonA.length : JsonA → Nat
  | .nil => 0
  | .cons _ t => t.length + 1

/-- Build a JSON array from a Lean list. -/
def JsonA.ofList : List Json → JsonA
  | [] => .nil
  | j :: js => .cons j (JsonA.ofList js)

/-- First value bound to `k` in a JSON object, if any. -/
def JsonO.lookup (k : String) : JsonO → Option Json
  | .nil => none
  | .cons key v t => if key == k then some v else JsonO.lookup k t

/-! ### `JSON.stringify` -/

/-- Lower-case hexadecimal digit. -/
def hexDigitChar (n : Nat) : Char :=
  if n < 10 then Char.ofNat (48 + n) else Char.ofNat (87 + n)

/-- Escaping of one character inside a JSON string literal, as
`JSON.stringify` performs it: `"` and `\` get a backslash escape,
the five control characters with short forms use them, the remaining
control characters use `\u00XX`, everything else is emitted verbatim. -/
def escChar (c : Char) : List Char :=
  if c = '"' then ['\\', '"']
  else if c = '\\' then ['\\', '\\']
  else if c = Char.ofNat 8 then ['\\', 'b']
  else if c = Char.ofNat 9 then ['\\', 't']
  else if c = Char.ofNat 10 then ['\\', 'n']
  else if c = Char.ofNat 12 then ['\\', 'f']
  else if c = Char.ofNat 13 then ['\\', 'r']
  else if c.toNat < 32 then
    ['\\', 'u', '0', '0', hexDigitChar (c.toNat / 16), hexDigitChar (c.toNat % 16)]
  else [c]

def escChars : List Char → List Char
  | [] => []
  | c :: cs => escChar c ++ escChars cs

/-- A JSON string literal: `"` + escaped body + `"`. -/
def strLit (s : String) : List Char :=
  '"' :: (escChars s.data ++ ['"'])

/-- Decimal digits of `n`, most significant first (fuel-based so the
definition is structural and kernel-reducible; `fuel ≥ n` suffices). -/
def natCharsAux : Nat → Nat → List Char
  | 0, _ => []
  | _, 0 => []
  | fuel + 1, n => natCharsAux fuel (n / 10) ++ [Char.ofNat (48 + n % 10)]

def natChars (n : Nat) : List Char :=
  if n = 0 then ['0'] else natCharsAux n n

/-- Decimal notation of an integer, as `JSON.stringify` prints the
integral doubles under study. -/
def intChars (n : Int) : List Char :=
  if n < 0 then '-' :: natChars n.natAbs else natChars n.toNat

mutual
/-- `JSON.stringify`, character list of the serialization of a value. -/
def jChars : Json → List Char
  | .null => 'n' :: 'u' :: 'l' :: 'l' :: []
  | .bool true => 't' :: 'r' :: 'u' :: 'e' :: []
  | .bool false => 'f' :: 'a' :: 'l' :: 's' :: 'e' :: []
  | .num n => intChars n
  | .str s => strLit s
  | .arr a => '[' :: (jCharsA a ++ [']'])
  | .obj o => '{' :: (jCharsO o ++ ['}'])

/-- Comma-separated serializations of array elements. -/
def jCharsA : JsonA → List Char
  | .nil => []
  | .cons h .nil => jChars h
  | .cons h (.cons h2 t) => jChars h ++ ',' :: jCharsA (.cons h2 t)

/-- Comma-separated `"key":value` serializations of object members. -/
def jCharsO : JsonO → List Char
  | .nil => []
  | .cons k v .nil => strLit k ++ ':' :: jChars v
  | .cons k v (.cons k2 v2 t) =>
    strLit k ++ ':' :: jChars v ++ ',' :: jCharsO (.cons k2 v2 t)
end

def jsonStringify (j : Json) : String := ⟨jChars j⟩

/-! ### `JSON.parse`

Recursive-descent parser over the character list, with a `Nat` fuel so
recursion is structural.  It accepts the canonical (whitespace-free)
serializations `JSON.stringify` produces — which is exactly what the
persistence layer stores and re-reads. -/

/-- Value of a hexadecimal digit. -/
def parseHex (c : Char) : Option Nat :=
  if '0' ≤ c ∧ c ≤ '9' then some (c.toNat - 48)
  else if 'a' ≤ c ∧ c ≤ 'f' then some (c.toNat - 87)
  else if 'A' ≤ c ∧ c ≤ 'F' then some (c.toNat - 55)
  else none

/-- Character named by a single-character escape. -/
def unescChar (c : Char) : Option Char :=
  if c = '"' then some '"'
  else if c = '\\' then some '\\'
  else if c = '/' then some '/'
  else if c = 'b' then some (Char.ofNat 8)
  else if c = 't' then some (Char.ofNat 9)
  else if c = 'n' then some (Char.ofNat 10)
  else if c = 'f' then some (Char.ofNat 12)
  else if c = 'r' then some (Char.ofNat 13)
  else none

/-- Decode a 4-hex-digit escape payload; returns the code point and the
remaining input. -/
def take4Hex : List Char → Option (Nat × List Char)
  | h1 :: h2 :: h3 :: h4 :: cs =>
    match parseHex h1, parseHex h2, parseHex h3, parseHex h4 with
    | some a, some b, some c, some d => some ((((a * 16 + b) * 16 + c) * 16 + d), cs)
    | _, _, _, _ => none
  | _ => none

/-- Parse the body of a string literal (the opening quote already
consumed); returns the decoded characters and the remaining input.
Fuel-based (each step consumes at least one character, so any fuel
exceeding the input length is enough). -/
def parseStrBody : Nat → List Char → Option (List Char × List Char)
  | 0, _ => none
  | _, [] => none
  | fuel + 1, c :: cs =>
    if c = '"' then some ([], cs)
    else if c = '\\' then
      match cs with
      | [] => none
      | e :: cs2 =>
        if e = 'u' then
          match take4Hex cs2 with
          | some (code, cs3) =>
            match parseStrBody fuel cs3 with
            | some (s, r) => some (Char.ofNat code :: s, r)
            | none => none
          | none => none
        else
          match unescChar e with
          | some ec =>
            match parseStrBody fuel cs2 with
            | some (s, r) => some (ec :: s, r)
            | none => none
          | none => none
    else if c.toNat < 32 then none
    else
      match parseStrBody fuel cs with
      | some (s, r) => some (c :: s, r)
      | none => none

/-- Parse a string-literal body, with enough fuel for the whole input. -/
def parseStr (cs : List Char) : Option (List Char × List Char) :=
  parseStrBody (cs.length + 1) cs

/-- Longest digit run at the head of the input. -/
def spanDigits : List Char → List Char × List Char
  | [] => ([], [])
  | c :: cs =>
    if c.isDigit then
      let (d, r) := spanDigits cs
      (c :: d, r)
    else ([], c :: cs)

/-- Numeric value of a digit run. -/
def numVal (ds : List Char) : Nat :=
  ds.foldl (fun a c => a * 10 + (c.toNat - 48)) 0

/-- Parse a natural number (at least one digit). -/
def parseNatNum (cs : List Char) : Option (Nat × List Char) :=
  let (d, r) := spanDigits cs
  if d.isEmpty then none else some (numVal d, r)

/-- Match a literal token at the head of the input. -/
def afterTok : List Char → List Char → Option (List Char)
  | [], cs => some cs
  | _ :: _, [] => none
  | t :: ts, c :: cs => if c = t then afterTok ts cs else none

mutual
/-- Parse one JSON value. -/
def parseVal : Nat → List Char → Option (Json × List Char)
  | 0, _ => none
  | _, [] => none
  | fuel + 1, c :: rest =>
    if c = 'n' then
      match afterTok ('u' :: 'l' :: 'l' :: []) rest with
      | some r => some (.null, r)
      | none => none
    else if c = 't' then
      match afterTok ('r' :: 'u' :: 'e' :: []) rest with
      | some r => some (.bool true, r)
      | none => none
    else if c = 'f' then
      match afterTok ('a' :: 'l' :: 's' :: 'e' :: []) rest with
      | some r => some (.bool false, r)
      | none => none
    else if c = '"' then
      match parseStr rest with
      | some (s, r) => some (.str ⟨s⟩, r)
      | none => none
    else if c = '-' then
      match parseNatNum rest with
      | some (n, r) => some (.num (-(n : Int)), r)
      | none => none
    else if c = '[' then
      if rest.head? = some ']' then some (.arr .nil, rest.tail)
      else
        match parseArrElems fuel rest with
        | some (a, r) => some (.arr a, r)
        | none => none
    else if c = '{' then
      if rest.head? = some '}' then some (.obj .nil, rest.tail)
      else
        match parseObjMems fuel rest with
        | some (o, r) => some (.obj o, r)
        | none => none
    else if c.isDigit then
      match parseNatNum (c :: rest) with
      | some (n, r) => some (.num (n : Int), r)
      | none => none
    else none

/-- Parse a non-empty comma-separated element list followed by `]`. -/
def parseArrElems : Nat → List Char → Option (JsonA × List Char)
  | 0, _ => none
  | fuel + 1, cs =>
    match parseVal fuel cs with
    | some (v, r) =>
      match r with
      | ',' :: r2 =>
        match parseArrElems fuel r2 with
        | some (a, r3) => some (.cons v a, r3)
        | none => none
      | ']' :: r2 => some (.cons v .nil, r2)
      | _ => none
    | none => none

/-- Parse a non-empty comma-separated member list followed by `}`. -/
def parseObjMems : Nat → List Char → Option (JsonO × List Char)
  | 0, _ => none
  | fuel + 1, cs =>
    match cs with
    | '"' :: cs2 =>
      match parseStr cs2 with
      | some (k, r) =>
        match r with
        | ':' :: r2 =>
          match parseVal fuel r2 with
          | some (v, r3) =>
            match r3 with
            | ',' :: r4 =>
              match parseObjMems fuel r4 with
              | some (o, r5) => some (.cons ⟨k⟩ v o, r5)
              | none => none
            | '}' :: r4 => some (.cons ⟨k⟩ v .nil, r4)
            | _ => none
          | none => none
        | _ => none
      | none => none
    | _ => none
end

/-- `JSON.parse`.  The fuel `2 * length + 2` dominates the nesting of
any value whose serialization fits in the input (shown below). -/
def jsonParse (s : String) : Option Json :=
  match parseVal (2 * s.data.length + 2) s.data with
  | some (v, []) => some v
  | _ => none

/-! ### Json sanity examples -/

example : jsonStringify (.arr (.cons .null (.cons (.bool true) .nil))) = "[null,true]" := by
  decide

example :
    jsonStringify (.obj (.cons "a" (.num (-12)) (.cons "b" (.str "x\"y") .nil)))
      = "\x7b\"a\":-12,\"b\":\"x\\\"y\"\x7d" := by
  decide

example : jsonParse "[null,true]" = some (.arr (.cons .null (.cons (.bool true) .nil))) := by
  decide

example :
    jsonParse (jsonStringify (.obj (.cons "a" (.num (-12)) (.cons "b" (.str "x\"y\n") .nil))))
      = some (.obj (.cons "a" (.num (-12)) (.cons "b" (.str "x\"y\n") .nil))) := by
  decide

/-! ### Parser inverts the serializer: token lemmas -/

theorem afterTok_self (ts : List Char) : ∀ cs, afterTok ts (ts ++ cs) = some cs := by
  induction ts with
  | nil => intro cs; rfl
  | cons t ts ih => intro cs; simp [afterTok, ih]

/-- `true` when the input does not begin with a decimal digit (so a
maximal digit run ending right before it is parsed back unchanged). -/
def headNotDigit : List Char → Bool
  | [] => true
  | c :: _ => !c.isDigit

theorem digitChar_isDigit : ∀ d, d < 10 → (Char.ofNat (48 + d)).isDigit = true := by
  decide

theorem natCharsAux_digits (fuel : Nat) :
    ∀ n c, c ∈ natCharsAux fuel n → c.isDigit = true := by
  induction fuel with
  | zero => intro n c h; simp [natCharsAux] at h
  | succ fuel ih =>
    intro n c h
    match n with
    | 0 => simp [natCharsAux] at h
    | m + 1 =>
      simp only [natCharsAux, List.mem_append, List.mem_singleton] at h
      rcases h with h | h
      · exact ih _ _ h
      · subst h
        exact digitChar_isDigit _ (Nat.mod_lt _ (by omega))

theorem natChars_digits (n : Nat) : ∀ c ∈ natChars n, c.isDigit = true := by
  intro c h
  unfold natChars at h
  split at h
  · simp at h; subst h; decide
  · exact natCharsAux_digits n n c h

theorem natChars_ne_nil (n : Nat) : natChars n ≠ [] := by
  unfold natChars
  split
  · simp
  · rename_i h
    match m : n, h with
    | m + 1, _ => simp [natCharsAux]

theorem spanDigits_all_not (ds rest : List Char)
    (hds : ∀ c ∈ ds, c.isDigit = true) (hrest : headNotDigit rest = true) :
    spanDigits (ds ++ rest) = (ds, rest) := by
  induction ds with
  | nil =>
    match rest with
    | [] => rfl
    | c :: cs =>
      simp only [headNotDigit, Bool.not_eq_true'] at hrest
      simp [spanDigits, hrest]
  | cons d ds ih =>
    have hd : d.isDigit = true := hds d (by simp)
    have ih' := ih (fun c hc => hds c (by simp [hc]))
    simp [spanDigits, hd, ih']

theorem numVal_append_one (l : List Char) (c : Char) :
    numVal (l ++ [c]) = numVal l * 10 + (c.toNat - 48) := by
  simp [numVal, List.foldl_append]

theorem numVal_natCharsAux (fuel : Nat) :
    ∀ n, n ≤ fuel → numVal (natCharsAux fuel n) = n := by
  induction fuel with
  | zero => intro n h; interval_cases n; rfl
  | succ fuel ih =>
    intro n h
    match n with
    | 0 => rfl
    | m + 1 =>
      have hdiv : (m + 1) / 10 ≤ fuel := by omega
      simp only [natCharsAux, numVal_append_one, ih _ hdiv]
      have : (Char.ofNat (48 + (m + 1) % 10)).toNat = 48 + (m + 1) % 10 := by
        have hlt : (m + 1) % 10 < 10 := Nat.mod_lt _ (by omega)
        have : ∀ d, d < 10 → (Char.ofNat (48 + d)).toNat = 48 + d := by decide
        exact this _ hlt
      rw [this]
      omega

theorem numVal_natChars (n : Nat) : numVal (natChars n) = n := by
  unfold natChars
  split
  · rename_i h; subst h; rfl
  · exact numVal_natCharsAux n n (Nat.le_refl n)

theorem parseNatNum_natChars (n : Nat) (rest : List Char)
    (hrest : headNotDigit rest = true) :
    parseNatNum (natChars n ++ rest) = some (n, rest) := by
  unfold parseNatNum
  rw [spanDigits_all_not _ _ (natChars_digits n) hrest]
  simp [natChars_ne_nil n, numVal_natChars]

/-! ### Parser inverts the serializer: string-literal lemmas -/

theorem parseHex_hexDigitChar : ∀ d, d < 16 → parseHex (hexDigitChar d) = some d := by
  decide

theorem parseStrBody_escChars (l : List Char) :
    ∀ fuel rest, l.length < fuel →
      parseStrBody fuel (escChars l ++ '"' :: rest) = some (l, rest) := by
  induction l with
  | nil =>
    intro fuel rest h
    cases fuel with
    | zero => omega
    | succ fuel => simp [escChars, parseStrBody]
  | cons c cs ih =>
    intro fuel rest h
    cases fuel with
    | zero => omega
    | succ fuel =>
      have hf : cs.length < fuel := by
        simp only [List.length_cons] at h; omega
      have ih' := ih fuel rest hf
      show parseStrBody (fuel + 1) ((escChar c ++ escChars cs) ++ '"' :: rest) = _
      rw [List.append_assoc]
      by_cases h1 : c = '"'
      · subst h1; simp [escChar, parseStrBody, unescChar, ih']
      by_cases h2 : c = '\\'
      · subst h2; simp [escChar, parseStrBody, unescChar, ih']
      by_cases h3 : c = Char.ofNat 8
      · subst h3; simp [escChar, parseStrBody, unescChar, ih']
      by_cases h4 : c = Char.ofNat 9
      · subst h4; simp [escChar, parseStrBody, unescChar, ih']
      by_cases h5 : c = Char.ofNat 10
      · subst h5; simp [escChar, parseStrBody, unescChar, ih']
      by_cases h6 : c = Char.ofNat 12
      · subst h6; simp [escChar, parseStrBody, unescChar, ih']
      by_cases h7 : c = Char.ofNat 13
      · subst h7; simp [escChar, parseStrBody, unescChar, ih']
      by_cases h8 : c.toNat < 32
      · -- the \u00XX escape
        have hhi : c.toNat / 16 < 16 := by omega
        have hlo : c.toNat % 16 < 16 := Nat.mod_lt _ (by omega)
        have hofNat : Char.ofNat c.toNat = c := Char.ofNat_toNat c
        simp only [escChar, if_neg h1, if_neg h2, if_neg h3, if_neg h4, if_neg h5,
          if_neg h6, if_neg h7, if_pos h8]
        have p0 : parseHex '0' = some 0 := by decide
        simp only [List.cons_append, List.nil_append]
        simp [parseStrBody, take4Hex, p0, parseHex_hexDigitChar _ hhi,
          parseHex_hexDigitChar _ hlo, ih']
        have heq : c.toNat / 16 * 16 + c.toNat % 16 = c.toNat := by omega
        rw [heq, hofNat]
      · -- ordinary character, emitted verbatim
        simp only [escChar, if_neg h1, if_neg h2, if_neg h3, if_neg h4, if_neg h5,
          if_neg h6, if_neg h7, if_neg h8]
        simp [parseStrBody, h1, h2, h8, ih']

theorem parseStr_escChars (l : List Char) (rest : List Char) :
    parseStr (escChars l ++ '"' :: rest) = some (l, rest) := by
  have hlen : l.length < (escChars l ++ '"' :: rest).length + 1 := by
    have : l.length ≤ (escChars l).length := by
      induction l with
      | nil => simp [escChars]
      | cons c cs ih =>
        have : 1 ≤ (escChar c).length := by
          unfold escChar
          repeat' split
          all_goals simp
        simp only [escChars, List.length_append, List.length_cons]
        omega
    simp only [List.length_append, List.length_cons]
    omega
  exact parseStrBody_escChars l _ rest hlen

/-! ### Parser inverts the serializer: main theorem -/

mutual
/-- Structural weight of a value; the parser needs at least this much
fuel. -/
def jw : Json → Nat
  | .null => 1
  | .bool _ => 1
  | .num _ => 1
  | .str _ => 1
  | .arr a => jwA a + 1
  | .obj o => jwO o + 1
def jwA : JsonA → Nat
  | .nil => 1
  | .cons h t => jw h + jwA t + 1
def jwO : JsonO → Nat
  | .nil => 1
  | .cons _ v t => jw v + jwO t + 1
end

/-- Characters a serialized JSON value can start with. -/
def jHeadOk (c : Char) : Bool :=
  c = 'n' || c = 't' || c = 'f' || c = '"' || c = '-' || c = '[' || c = '{' || c.isDigit

theorem natChars_head (m : Nat) :
    ∃ c cs, natChars m = c :: cs ∧ c.isDigit = true := by
  match h : natChars m with
  | [] => exact absurd h (natChars_ne_nil m)
  | c :: cs =>
    refine ⟨c, cs, rfl, ?_⟩
    exact natChars_digits m c (h ▸ List.mem_cons_self c cs)

theorem jChars_head (j : Json) : ∃ c cs, jChars j = c :: cs ∧ jHeadOk c = true := by
  cases j with
  | null => exact ⟨'n', _, rfl, by decide⟩
  | bool b =>
    cases b with
    | false => exact ⟨'f', _, rfl, by decide⟩
    | true => exact ⟨'t', _, rfl, by decide⟩
  | num n =>
    show ∃ c cs, intChars n = c :: cs ∧ _
    unfold intChars
    split
    · exact ⟨'-', _, rfl, by decide⟩
    · obtain ⟨c, cs, hc, hd⟩ := natChars_head n.toNat
      exact ⟨c, cs, hc, by simp [jHeadOk, hd]⟩
  | str s => exact ⟨'"', _, rfl, by decide⟩
  | arr a => exact ⟨'[', _, rfl, by decide⟩
  | obj o => exact ⟨'{', _, rfl, by decide⟩

theorem isDigit_notLit (c : Char) (h : c.isDigit = true) :
    c ≠ 'n' ∧ c ≠ 't' ∧ c ≠ 'f' ∧ c ≠ '"' ∧ c ≠ '-' ∧ c ≠ '[' ∧ c ≠ '{' := by
  refine ⟨?_, ?_, ?_, ?_, ?_, ?_, ?_⟩ <;>
    (rintro rfl; revert h; decide)

theorem headNotDigit_cons (c : Char) (l : List Char) :
    headNotDigit (c :: l) = !c.isDigit := rfl

theorem headNotDigit_of_not (c : Char) (l : List Char) (h : c.isDigit = false) :
    headNotDigit (c :: l) = true := by
  rw [headNotDigit_cons, h]; rfl

theorem jw_pos (j : Json) : 1 ≤ jw j := by
  cases j <;> simp [jw]

theorem jwA_pos (a : JsonA) : 1 ≤ jwA a := by
  cases a <;> simp [jwA]

theorem jwO_pos (o : JsonO) : 1 ≤ jwO o := by
  cases o <;> simp [jwO]

theorem jCharsA_cons_split (h : Json) (t : JsonA) :
    ∃ x, jCharsA (.cons h t) = jChars h ++ x := by
  cases t with
  | nil => exact ⟨[], by simp [jCharsA]⟩
  | cons h2 t2 => exact ⟨',' :: jCharsA (.cons h2 t2), by simp [jCharsA]⟩

mutual
theorem parseVal_jChars (j : Json) :
    ∀ fuel rest, jw j ≤ fuel → headNotDigit rest = true →
      parseVal fuel (jChars j ++ rest) = some (j, rest) := by
  intro fuel rest hfuel hrest
  cases fuel with
  | zero => exact absurd hfuel (by have := jw_pos j; omega)
  | succ fuel =>
    cases j with
    | null => simp [jChars, parseVal, afterTok]
    | bool b => cases b <;> simp [jChars, parseVal, afterTok]
    | num n =>
      show parseVal (fuel + 1) (intChars n ++ rest) = _
      unfold intChars
      split
      · rename_i hneg
        simp only [List.cons_append]
        simp [parseVal, parseNatNum_natChars n.natAbs rest hrest,
          -Int.natCast_natAbs]
        omega
      · rename_i hpos
        obtain ⟨c, cs, hc, hd⟩ := natChars_head n.toNat
        obtain ⟨hn1, hn2, hn3, hn4, hn5, hn6, hn7⟩ := isDigit_notLit c hd
        rw [hc]
        have hrw : c :: (cs ++ rest) = natChars n.toNat ++ rest := by rw [hc]; rfl
        simp only [List.cons_append]
        simp [parseVal, hn1, hn2, hn3, hn4, hn5, hn6, hn7, hd, hrw,
          parseNatNum_natChars n.toNat rest hrest]
        omega
    | str s =>
      show parseVal (fuel + 1) (strLit s ++ rest) = _
      simp only [strLit, List.cons_append, List.append_assoc, List.singleton_append]
      simp [parseVal, parseStr_escChars]
    | arr a =>
      cases a with
      | nil =>
        show parseVal (fuel + 1) (('[' :: (jCharsA .nil ++ [']'])) ++ rest) = _
        simp [jCharsA, parseVal]
      | cons h t =>
        have hfA : jwA (.cons h t) ≤ fuel := by
          simp only [jw] at hfuel; omega
        have harr := parseArrElems_jCharsA h t fuel rest hfA
        obtain ⟨x, hx⟩ := jCharsA_cons_split h t
        obtain ⟨c, cs, hc, hok⟩ := jChars_head h
        have hcne : c ≠ ']' := by
          rintro rfl; revert hok; decide
        show parseVal (fuel + 1) (('[' :: (jCharsA (.cons h t) ++ [']'])) ++ rest) = _
        have hshape : jCharsA (.cons h t) ++ [']'] ++ rest
            = jCharsA (.cons h t) ++ ']' :: rest := by
          simp
        have hhead : (jCharsA (.cons h t) ++ ']' :: rest).head? = some c := by
          rw [hx, hc]; simp
        simp only [List.cons_append, hshape]
        simp [parseVal, hhead, hcne, harr]
    | obj o =>
      cases o with
      | nil =>
        show parseVal (fuel + 1) (('{' :: (jCharsO .nil ++ ['}'])) ++ rest) = _
        simp [jCharsO, parseVal]
      | cons k v t =>
        have hfO : jwO (.cons k v t) ≤ fuel := by
          simp only [jw] at hfuel; omega
        have hobj := parseObjMems_jCharsO k v t fuel rest hfO
        show parseVal (fuel + 1) (('{' :: (jCharsO (.cons k v t) ++ ['}'])) ++ rest) = _
        have hshape : jCharsO (.cons k v t) ++ ['}'] ++ rest
            = jCharsO (.cons k v t) ++ '}' :: rest := by
          simp
        have hhead : (jCharsO (.cons k v t) ++ '}' :: rest).head? = some '"' := by
          cases t <;> simp [jCharsO, strLit]
        simp only [List.cons_append, hshape]
        simp [parseVal, hhead, hobj]
termination_by sizeOf j

theorem parseArrElems_jCharsA (h : Json) (t : JsonA) :
    ∀ fuel rest, jwA (.cons h t) ≤ fuel →
      parseArrElems fuel (jCharsA (.cons h t) ++ ']' :: rest) = some (.cons h t, rest) := by
  intro fuel rest hfuel
  cases fuel with
  | zero =>
    exact absurd hfuel (by have := jwA_pos (JsonA.cons h t); omega)
  | succ fuel =>
    cases t with
    | nil =>
      have h1 : jw h ≤ fuel := by simp only [jwA] at hfuel; have := jwA_pos .nil; omega
      have hv := parseVal_jChars h fuel (']' :: rest) h1
        (headNotDigit_of_not _ _ (by decide))
      show parseArrElems (fuel + 1) (jCharsA (.cons h .nil) ++ ']' :: rest) = _
      simp only [jCharsA]
      simp [parseArrElems, hv]
    | cons h2 t2 =>
      have h1 : jw h ≤ fuel := by
        simp only [jwA] at hfuel
        have := jw_pos h2; have := jwA_pos t2; have := jwA_pos (JsonA.cons h2 t2)
        omega
      have h2f : jwA (.cons h2 t2) ≤ fuel := by
        simp only [jwA] at hfuel ⊢
        have := jw_pos h; omega
      have hv := parseVal_jChars h fuel (',' :: (jCharsA (.cons h2 t2) ++ ']' :: rest)) h1
        (headNotDigit_of_not _ _ (by decide))
      have hA := parseArrElems_jCharsA h2 t2 fuel rest h2f
      show parseArrElems (fuel + 1)
        ((jChars h ++ ',' :: jCharsA (.cons h2 t2)) ++ ']' :: rest) = _
      rw [List.append_assoc, List.cons_append]
      simp [parseArrElems, hv, hA]
termination_by sizeOf (JsonA.cons h t)

theorem parseObjMems_jCharsO (k : String) (v : Json) (t : JsonO) :
    ∀ fuel rest, jwO (.cons k v t) ≤ fuel →
      parseObjMems fuel (jCharsO (.cons k v t) ++ '}' :: rest) = some (.cons k v t, rest) := by
  intro fuel rest hfuel
  cases fuel with
  | zero =>
    exact absurd hfuel (by have := jwO_pos (JsonO.cons k v t); omega)
  | succ fuel =>
    cases t with
    | nil =>
      have h1 : jw v ≤ fuel := by simp only [jwO] at hfuel; have := jwO_pos .nil; omega
      have hv := parseVal_jChars v fuel ('}' :: rest) h1
        (headNotDigit_of_not _ _ (by decide))
      show parseObjMems (fuel + 1) ((strLit k ++ ':' :: jChars v) ++ '}' :: rest) = _
      have hshape : (strLit k ++ ':' :: jChars v) ++ '}' :: rest
          = '"' :: (escChars k.data ++ '"' :: (':' :: (jChars v ++ '}' :: rest))) := by
        simp [strLit]
      rw [hshape]
      simp [parseObjMems, parseStr_escChars, hv]
    | cons k2 v2 t2 =>
      have h1 : jw v ≤ fuel := by
        simp only [jwO] at hfuel
        have := jw_pos v2; have := jwO_pos t2; have := jwO_pos (JsonO.cons k2 v2 t2)
        omega
      have h2f : jwO (.cons k2 v2 t2) ≤ fuel := by
        simp only [jwO] at hfuel ⊢
        have := jw_pos v; omega
      have hv := parseVal_jChars v fuel
        (',' :: (jCharsO (.cons k2 v2 t2) ++ '}' :: rest)) h1
        (headNotDigit_of_not _ _ (by decide))
      have hO := parseObjMems_jCharsO k2 v2 t2 fuel rest h2f
      show parseObjMems (fuel + 1)
        ((strLit k ++ ':' :: jChars v ++ ',' :: jCharsO (.cons k2 v2 t2)) ++ '}' :: rest) = _
      have hshape : (strLit k ++ ':' :: jChars v ++ ',' :: jCharsO (.cons k2 v2 t2)) ++ '}' :: rest
          = '"' :: (escChars k.data ++ '"' ::
              (':' :: (jChars v ++ ',' :: (jCharsO (.cons k2 v2 t2) ++ '}' :: rest)))) := by
        simp [strLit]
      rw [hshape]
      simp [parseObjMems, parseStr_escChars, hv, hO]
termination_by sizeOf (JsonO.cons k v t)
end

theorem natChars_len (m : Nat) : 1 ≤ (natChars m).length := by
  have := natChars_ne_nil m
  cases h : natChars m with
  | nil => exact absurd h this
  | cons c cs => simp

mutual
theorem jw_le (j : Json) : jw j + 1 ≤ 2 * (jChars j).length := by
  cases j with
  | null => simp [jw, jChars]
  | bool b => cases b <;> simp [jw, jChars]
  | num n =>
    have h1 : 1 ≤ (intChars n).length := by
      unfold intChars
      split
      · simp
      · exact natChars_len _
    show jw (.num n) + 1 ≤ 2 * (intChars n).length
    simp only [jw]
    omega
  | str s =>
    show jw (.str s) + 1 ≤ 2 * (strLit s).length
    simp [jw, strLit]
  | arr a =>
    have := jwA_le a
    show jw (.arr a) + 1 ≤ 2 * ('[' :: (jCharsA a ++ [']'])).length
    simp only [jw, List.length_cons, List.length_append, List.length_singleton]
    omega
  | obj o =>
    have := jwO_le o
    show jw (.obj o) + 1 ≤ 2 * ('{' :: (jCharsO o ++ ['}'])).length
    simp only [jw, List.length_cons, List.length_append, List.length_singleton]
    omega
termination_by sizeOf j

theorem jwA_le (a : JsonA) : jwA a + 1 ≤ 2 * (jCharsA a).length + 2 := by
  cases a with
  | nil => simp [jwA, jCharsA]
  | cons h t =>
    have hh := jw_le h
    cases t with
    | nil =>
      show jwA (.cons h .nil) + 1 ≤ 2 * (jChars h).length + 2
      simp only [jwA]
      omega
    | cons h2 t2 =>
      have ht := jwA_le (JsonA.cons h2 t2)
      show jwA (.cons h (.cons h2 t2)) + 1
        ≤ 2 * (jChars h ++ ',' :: jCharsA (.cons h2 t2)).length + 2
      simp only [jwA, List.length_append, List.length_cons] at ht ⊢
      omega
termination_by sizeOf a

theorem jwO_le (o : JsonO) : jwO o + 1 ≤ 2 * (jCharsO o).length + 2 := by
  cases o with
  | nil => simp [jwO, jCharsO]
  | cons k v t =>
    have hv := jw_le v
    have hk : 2 ≤ (strLit k).length := by simp [strLit]
    cases t with
    | nil =>
      show jwO (.cons k v .nil) + 1 ≤ 2 * (strLit k ++ ':' :: jChars v).length + 2
      simp only [jwO, List.length_append, List.length_cons]
      omega
    | cons k2 v2 t2 =>
      have ht := jwO_le (JsonO.cons k2 v2 t2)
      show jwO (.cons k v (.cons k2 v2 t2)) + 1
        ≤ 2 * (strLit k ++ ':' :: jChars v ++ ',' :: jCharsO (.cons k2 v2 t2)).length + 2
      simp only [jwO, List.length_append, List.length_cons] at ht ⊢
      omega
termination_by sizeOf o
end

/-- `JSON.parse` inverts `JSON.stringify`: the round-trip is the
identity on every JSON value. -/
theorem jsonParse_jsonStringify (j : Json) : jsonParse (jsonStringify j) = some j := by
  unfold jsonParse jsonStringify
  have hfuel : jw j ≤ 2 * (jChars j).length + 2 := by
    have := jw_le j; omega
  have h := parseVal_jChars j (2 * (jChars j).length + 2) [] hfuel rfl
  rw [List.append_nil] at h
  simp [h]

/-! ## Simulated respondent state

From `src/client/lib/SimulatedUser.js` (operative variant with
server-loaded prompt configuration, lines 550-811).  The two network
calls are oracles: `fetched` is the outcome of the
`GET /api/prompts/candidate` fetch (`none` = request failed/threw), and
`ai` maps the message list sent to the chat-completion endpoint to the
trimmed response text, or to `Except.error` when the call throws. -/

structure ChatTurn where
  role : String
  message : String
deriving Repr, DecidableEq

/-- Prompt configuration (`/api/prompts/:name` response).  The
generation settings (`max_tokens`, `temperature`, `presence_penalty`)
only parameterize the external chat call and carry floats, so they stay
inside the `ai` oracle. -/
structure PromptConfig where
  name : String
  model : String
  role : String
  prompt : String
deriving Repr, DecidableEq

structure SimUser where
  initialized : Bool
  candidateConfig : Option PromptConfig
  systemPrompt : String
  conversationHistory : List ChatTurn
  isActive : Bool
  lastInterviewerMessage : String
deriving Repr, DecidableEq

/-- Constructor state (SimulatedUser.js:550-559). -/
def SimUser.new : SimUser :=
  { initialized := false, candidateConfig := none, systemPrompt := ""
  , conversationHistory := [], isActive := false, lastInterviewerMessage := "" }

/-- The fallback prompt installed when the prompt fetch fails
(SimulatedUser.js:591-595). -/
def fallbackPrompt : String :=
  "You are a job candidate being interviewed. Your background:\n- nurse with 3 years experience\n- Worked at pediatric hospitals\n\nKeep responses conversational and realistic but very short. Please respond only with what you say and not the entire conversation history."

/-- The fallback configuration (SimulatedUser.js:581-590). -/
def fallbackConfig : PromptConfig :=
  { name := "Candidate", model := "gpt-4", role := "candidate", prompt := fallbackPrompt }

/-- `SimulatedUser.initialize` (SimulatedUser.js:564-598): idempotent;
on fetch failure falls back to the built-in config.  Never throws. -/
def SimUser.initConfig (fetched : Option PromptConfig) (u : SimUser) : SimUser :=
  if u.initialized then u
  else
    match fetched with
    | some cfg =>
      { u with candidateConfig := some cfg, systemPrompt := cfg.prompt, initialized := true }
    | none =>
      { u with candidateConfig := some fallbackConfig, systemPrompt := fallbackPrompt
             , initialized := true }

/-- `SimulatedUser.start` (SimulatedUser.js:600-605). -/
def SimUser.start (fetched : Option PromptConfig) (u : SimUser) : SimUser :=
  let u := u.initConfig fetched
  { u with isActive := true, conversationHistory := [], lastInterviewerMessage := "" }

/-- `SimulatedUser.stop` (SimulatedUser.js:607-609). -/
def SimUser.stop (u : SimUser) : SimUser :=
  { u with isActive := false }

/-- The message list `generateAIResponse` sends to the chat endpoint
(SimulatedUser.js:667-689): system prompt then the replayed history with
roles mapped `interviewer → user`, anything else `→ assistant`. -/
def buildMessages (u : SimUser) : List ChatTurn :=
  ⟨"system", u.systemPrompt⟩ ::
    u.conversationHistory.map fun e =>
      ⟨if e.role == "interviewer" then "user" else "assistant", e.message⟩

/-- The fixed fallback reply returned when the chat call throws. -/
def fallbackReply : String := "Could you please repeat the question?"

/-- `SimulatedUser.generateResponse` (SimulatedUser.js:622-661).
Returns the reply (`none` models JS `null`) and the updated state. -/
def SimUser.generateResponse (fetched : Option PromptConfig)
    (ai : List ChatTurn → Except String String)
    (interviewerMessage : String) (u : SimUser) : Option String × SimUser :=
  let u := u.initConfig fetched
  if !u.isActive then (none, u)
  else
    let u :=
      if !interviewerMessage.isEmpty then
        { u with lastInterviewerMessage := interviewerMessage
               , conversationHistory :=
                   u.conversationHistory ++ [⟨"interviewer", interviewerMessage⟩] }
      else u
    match ai (buildMessages u) with
    | .ok r =>
      let u :=
        if !r.isEmpty then
          { u with conversationHistory := u.conversationHistory ++ [⟨"candidate", r⟩] }
        else u
      (some r, u)
    | .error _ => (some fallbackReply, u)

/-! ## Turn orchestrator

From `src/client/lib/BenchmarkingService.js`.  `Date` timestamps and
`crypto.randomUUID` identifiers are modelled by the monotone ghost
counter `tick`; `appendCount` is a ghost counter of `addToTranscript`
pushes; `outbox` records the texts handed to `sendTextMessage`; and
`savedPayloads` records the bodies handed to
`PUT /api/benchmark-runs/:id` by `saveRunToServer`. -/

structure TranscriptEntry where
  timestamp : Nat
  role : String
  message : String
  id : Nat
deriving Repr, DecidableEq

structure LogEntry where
  timestamp : Nat
  source : String
  action : String
  data : Json
  id : Nat
deriving DecidableEq

structure Run where
  id : String
  startTime : Nat
  endTime : Option Nat
  transcript : List TranscriptEntry
  eventLog : List LogEntry
  status : String
  processedEventIds : List String
  selectedInterviewerPrompt : String
  selectedUserPrompt : String
deriving DecidableEq

/-- One entry of the `conversation_history` array built by
`saveRunToServer` (BenchmarkingService.js:375-379). -/
structure ConvHistEntry where
  speaker : String
  content : String
  timestamp : Nat
deriving Repr, DecidableEq

/-- One entry of the `event_log` array built by `saveRunToServer`
(BenchmarkingService.js:382-387). -/
structure EvLogEntry where
  timestamp : Nat
  source : String
  action : String
  data : Json
deriving DecidableEq

/-- The request body `saveRunToServer` submits
(BenchmarkingService.js:389-395). -/
structure SavePayload where
  mode : String
  conversation_history : List ConvHistEntry
  event_log : List EvLogEntry
  interviewer_prompt_name : String
  simulated_user_prompt_name : String
deriving DecidableEq

structure BenchState where
  isRunning : Bool
  simUser : SimUser
  currentRun : Option Run
  currentEvents : List ConversationEvent
  tick : Nat
  appendCount : Nat
  outbox : List String
  savedPayloads : List SavePayload
deriving DecidableEq

/-- Constructor state (BenchmarkingService.js:11-22). -/
def initBench : BenchState :=
  { isRunning := false, simUser := SimUser.new, currentRun := none
  , currentEvents := [], tick := 0, appendCount := 0, outbox := [], savedPayloads := [] }

/-- `addToTranscript` (BenchmarkingService.js:233-244): no-op without a
current run, else append one entry. -/
def addToTranscript (role message : String) (s : BenchState) : BenchState :=
  match s.currentRun with
  | none => s
  | some run =>
    { s with
        currentRun := (some
          { run with transcript := run.transcript ++ [⟨s.tick, role, message, s.tick⟩] }),
        tick := s.tick + 1,
        appendCount := s.appendCount + 1 }

/-- `logEvent` (BenchmarkingService.js:252-269): no-op without a current
run, else append one log entry. -/
def logEvent (source action : String) (data : Json) (s : BenchState) : BenchState :=
  match s.currentRun with
  | none => s
  | some run =>
    { s with
        currentRun := (some
          { run with eventLog := run.eventLog ++ [⟨s.tick, source, action, data, s.tick⟩] }),
        tick := s.tick + 1 }

/-- The filter `updateEventLog` applies (BenchmarkingService.js:279-281):
an event passes when its `event_id` is not in the processed set;
`includes(undefined)` is `false` on a set that only ever receives
strings, so id-less events always pass. -/
def freshEvent (processed : List String) (e : ConversationEvent) : Bool :=
  match e.event_id with
  | none => true
  | some i => !processed.contains i

/-- The `data` object logged for a realtime event
(BenchmarkingService.js:321-324): `{eventId, hasTranscript}`. -/
def eventLogData (e : ConversationEvent) : Json :=
  .obj (.cons "eventId" (match e.event_id with | some i => .str i | none => .null)
    (.cons "hasTranscript" (.bool (truthyStr e.transcript)) .nil))

/-- Body of the `forEach` in `updateEventLog`
(BenchmarkingService.js:289-325): record a truthy `event_id` in the
processed set, then log the event. -/
def processNewEvent (e : ConversationEvent) (s : BenchState) : BenchState :=
  let s1 :=
    match s.currentRun, e.event_id with
    | some run, some i =>
      if i.isEmpty then s
      else
        { s with currentRun := (some
            { run with processedEventIds := run.processedEventIds ++ [i] }) }
    | _, _ => s
  logEvent "realtime_api" e.type (eventLogData e) s1

/-- `updateEventLog` (BenchmarkingService.js:275-326): filter the fed
list against the processed set as of call entry, then process each
surviving event.  (The source reads `currentRun` unconditionally; it is
only invoked while a run exists.) -/
def updateEventLog (events : List ConversationEvent) (s : BenchState) : BenchState :=
  match s.currentRun with
  | none => s
  | some run =>
    let newEvents := events.filter (freshEvent run.processedEventIds)
    newEvents.foldl (fun st e => processNewEvent e st) s

/-- The audio-output-finished marker checked before scheduling a reply. -/
def audioStoppedMarker : String := "output_audio_buffer.stopped"

/-- Result of one `monitorConversation` invocation: the new state plus
which one-shot timers the tick scheduled (`setTimeout(endRun)`,
`setTimeout(generateSimulatedResponse)`). -/
structure TickResult where
  state : BenchState
  scheduledEnd : Bool
  scheduledResponse : Bool
deriving DecidableEq

/-- `monitorConversation` (BenchmarkingService.js:134-190). -/
def monitorConversation (events : List ConversationEvent) (s : BenchState) : TickResult :=
  if !s.isRunning then ⟨s, false, false⟩
  else
    let s1 := { s with currentEvents := events }
    let s2 := updateEventLog events s1
    if isConversationEnded events then
      let s3 := logEvent "system" "Termination cue detected"
        (.obj (.cons "cue" (.str "That completes the interview") .nil)) s2
      ⟨s3, true, false⟩
    else
      if shouldRespond s2.simUser.isActive events then
        match (match s2.currentRun with
               | some run => run.eventLog.getLast?
               | none => none) with
        | some lastLog =>
          if lastLog.action == audioStoppedMarker then ⟨s2, false, true⟩
          else ⟨s2, false, false⟩
        | none => ⟨s2, false, false⟩
      else ⟨s2, false, false⟩

/-- The transcript-to-payload translation in `saveRunToServer`
(BenchmarkingService.js:368-415). -/
def saveRunPayload (r : Run) : SavePayload :=
  { mode := "benchmark"
  , conversation_history := r.transcript.map fun en =>
      { speaker := if en.role == "interviewer" then "interviewer" else "simulated_user"
      , content := en.message, timestamp := en.timestamp }
  , event_log := r.eventLog.map fun en =>
      { timestamp := en.timestamp, source := en.source, action := en.action, data := en.data }
  , interviewer_prompt_name := r.selectedInterviewerPrompt
  , simulated_user_prompt_name := r.selectedUserPrompt }

/-- `endRun` (BenchmarkingService.js:90-128): guarded no-op unless a run
is active; otherwise stop, mark completed, log the end, and submit the
payload. -/
def endRun (s : BenchState) : BenchState :=
  match s.currentRun with
  | none => s
  | some run =>
    if !s.isRunning then s
    else
      let run1 := { run with endTime := some s.tick, status := "completed" }
      let s1 := { s with isRunning := false, simUser := s.simUser.stop
                       , currentRun := some run1 }
      let s2 := logEvent "system" "Benchmark run ended"
        (.obj (.cons "runId" (.str run1.id)
          (.cons "duration" (.num ((s.tick : Int) - (run1.startTime : Int))) .nil))) s1
      match s2.currentRun with
      | some run2 => { s2 with savedPayloads := s2.savedPayloads ++ [saveRunPayload run2] }
      | none => s2

/-- `generateSimulatedResponse` (BenchmarkingService.js:195-226):
extract the latest interviewer utterance, append it, generate the
respondent reply, and on a truthy reply log it, append it and forward it
into the event channel. -/
def generateSimulatedResponse (fetched : Option PromptConfig)
    (ai : List ChatTurn → Except String String) (s : BenchState) : BenchState :=
  let interviewerMessage := extractLatestInterviewerMessage s.currentEvents
  let s1 := addToTranscript "interviewer" interviewerMessage s
  let (resp, su) := s1.simUser.generateResponse fetched ai interviewerMessage
  let s2 := { s1 with simUser := su }
  match resp with
  | some r =>
    if !r.isEmpty then
      let s3 := logEvent "simulated_user" "Generated response" (.obj .nil) s2
      let s4 := addToTranscript "simulated_user" r s3
      { s4 with outbox := s4.outbox ++ [r] }
    else s2
  | none => s2

/-- `startRun` (BenchmarkingService.js:31-85) after the run id has been
obtained from the server: install the fresh run, start the respondent,
and log the start.  (The trailing `monitorConversation(events)` call and
the greeting timer are separate steps of the machine.) -/
def startRun (runId : String) (createdAt : Nat) (fetched : Option PromptConfig)
    (interviewerPrompt userPrompt : String) (s : BenchState) : BenchState :=
  if s.isRunning then s
  else
    let run : Run :=
      { id := runId, startTime := createdAt, endTime := none, transcript := []
      , eventLog := [], status := "running", processedEventIds := []
      , selectedInterviewerPrompt := interviewerPrompt, selectedUserPrompt := userPrompt }
    let s1 := { s with isRunning := true, currentRun := some run, appendCount := 0 }
    let s2 := { s1 with simUser := (s1.simUser.initConfig fetched).start fetched }
    logEvent "system" "Benchmark run started" (.obj (.cons "runId" (.str runId) .nil)) s2

/-- One atomic step of the host's single-threaded event loop: a
monitoring tick, or the firing of one of the three one-shot timers
(`endRun`, `generateSimulatedResponse`, the initial greeting).  Each
timer checks the live flags at fire time (BenchmarkingService.js:77-82,
155-160, 181-185). -/
inductive BStep where
  | monitor (events : List ConversationEvent)
  | endTimer
  | respTimer (fetched : Option PromptConfig) (ai : List ChatTurn → Except String String)
  | greetTimer

def applyStep : BStep → BenchState → BenchState
  | .monitor events, s => (monitorConversation events s).state
  | .endTimer, s => endRun s
  | .respTimer fetched ai, s =>
    if s.isRunning then generateSimulatedResponse fetched ai s else s
  | .greetTimer, s =>
    if s.isRunning then { s with outbox := s.outbox ++ ["Hello, I'm ready."] } else s

/-! ## Persistence gateway

From `src/server/lib/database.js` and the benchmark routes of
`src/server.js`.  The SQLite table is a list of rows; `db.run` errors
(NOT NULL / PRIMARY KEY violations) and `JSON.parse` throws surface as
`Except.error`.  `generatePromptId` is a SHA-256 digest of the prompt
file, irrelevant to every claim, so it is an abstract function
parameter. -/

/-- JS truthiness of a JSON value. -/
def jsTruthy : Json → Bool
  | .null => false
  | .bool b => b
  | .num n => !(n == 0)
  | .str s => !s.isEmpty
  | .arr _ => true
  | .obj _ => true

/-- JS `.length` of a JSON value: defined for arrays and strings,
`undefined` (`none`) otherwise. -/
def jsLength : Json → Option Nat
  | .arr a => some a.length
  | .str s => some s.length
  | _ => none

/-- JS `x || d` for an optional string `x` and string default `d`. -/
def jsOrStr (o : Option String) (d : String) : String :=
  match o with
  | some s => if s.isEmpty then d else s
  | none => d

/-- JS falsiness of an optional JSON field (absent, `null`, `false`,
`0`, `""`). -/
def jsFalsyOpt (o : Option Json) : Bool :=
  match o with
  | none => true
  | some j => !jsTruthy j

/-- One row of the `benchmark_runs` table (database.js:47-61). -/
structure DbRow where
  run_id : String
  created_at : Nat
  mode : String
  num_turns : Nat
  interviewer_prompt_id : String
  simulated_user_prompt_id : String
  interviewer_prompt_name : String
  simulated_user_prompt_name : String
  quality_metrics_json : Option String
  benchmark_tests_json : Option String
  conversation_history_json : String
  event_log_json : String
deriving DecidableEq

/-- The `runData` argument of `saveBenchmarkRun` (the
`completeRunData` the PUT handler assembles). -/
structure RunData where
  mode : Option String
  conversation_history : Option Json
  event_log : Option Json
  interviewer_prompt_id : String
  simulated_user_prompt_id : String
  interviewer_prompt_name : String
  simulated_user_prompt_name : String
deriving DecidableEq

/-- `saveBenchmarkRun` (database.js:102-171): derive `num_turns` from
the submitted `conversation_history` (`0` for a falsy one, the
`.length` otherwise — `undefined`, hence a NOT NULL violation, for a
truthy value with no `.length`), serialize the two JSON payloads
(`x || []`), and INSERT; a duplicate `run_id` violates the PRIMARY
KEY. -/
def saveBenchmarkRun (runId : String) (rd : RunData) (createdAt : Nat)
    (db : List DbRow) : Except String (DbRow × List DbRow) :=
  let ch := rd.conversation_history.getD .null
  let el := rd.event_log.getD .null
  match (if jsTruthy ch then jsLength ch else some 0) with
  | none => .error "NOT NULL constraint failed: benchmark_runs.num_turns"
  | some num_turns =>
    if db.any (fun r => r.run_id == runId) then
      .error "UNIQUE constraint failed: benchmark_runs.run_id"
    else
      let row : DbRow :=
        { run_id := runId
        , created_at := createdAt
        , mode := jsOrStr rd.mode "benchmark"
        , num_turns := num_turns
        , interviewer_prompt_id := rd.interviewer_prompt_id
        , simulated_user_prompt_id := rd.simulated_user_prompt_id
        , interviewer_prompt_name := rd.interviewer_prompt_name
        , simulated_user_prompt_name := rd.simulated_user_prompt_name
        , quality_metrics_json := none
        , benchmark_tests_json := none
        , conversation_history_json := jsonStringify (if jsTruthy ch then ch else .arr .nil)
        , event_log_json := jsonStringify (if jsTruthy el then el else .arr .nil) }
      .ok (row, db ++ [row])

/-- The record `getBenchmarkRun` resolves (database.js:231-245): the row
with its JSON columns parsed and removed. -/
structure RunRecord where
  run_id : String
  created_at : Nat
  mode : String
  num_turns : Nat
  interviewer_prompt_id : String
  simulated_user_prompt_id : String
  interviewer_prompt_name : String
  simulated_user_prompt_name : String
  conversation_history : Json
  event_log : Json
  quality_metrics : Option Json
  benchmark_tests : Option Json
deriving DecidableEq

/-- `row.x_json ? JSON.parse(row.x_json) : null`; the outer `none`
models a `JSON.parse` throw. -/
def parseOptCol : Option String → Option (Option Json)
  | none => some none
  | some q => match jsonParse q with
    | some j => some (some j)
    | none => none

/-- `getBenchmarkRun` (database.js:207-248). -/
def getBenchmarkRun (runId : String) (db : List DbRow) : Except String RunRecord :=
  match db.find? (fun r => r.run_id == runId) with
  | none => .error ("Benchmark run " ++ runId ++ " not found")
  | some row =>
    match jsonParse row.conversation_history_json, jsonParse row.event_log_json,
        parseOptCol row.quality_metrics_json, parseOptCol row.benchmark_tests_json with
    | some ch, some el, some qm, some bt =>
      .ok { run_id := row.run_id, created_at := row.created_at, mode := row.mode
          , num_turns := row.num_turns
          , interviewer_prompt_id := row.interviewer_prompt_id
          , simulated_user_prompt_id := row.simulated_user_prompt_id
          , interviewer_prompt_name := row.interviewer_prompt_name
          , simulated_user_prompt_name := row.simulated_user_prompt_name
          , conversation_history := ch, event_log := el
          , quality_metrics := qm, benchmark_tests := bt }
    | _, _, _, _ => .error "JSON parse error"

/-- Request body of `PUT /api/benchmark-runs/:run_id` (the fields the
handler reads; prompt names and mode are strings in every client
payload). -/
structure PutBody where
  mode : Option String
  conversation_history : Option Json
  event_log : Option Json
  interviewer_prompt_name : Option String
  simulated_user_prompt_name : Option String
deriving DecidableEq

/-- `PUT /api/benchmark-runs/:run_id` (server.js:237-274): validate the
two required fields, assemble `completeRunData`, save; returns the HTTP
status, the error message if any, and the database afterwards. -/
def putBenchmarkRun (promptId : String → String) (runId : String) (body : PutBody)
    (createdAt : Nat) (db : List DbRow) : (Nat × Option String) × List DbRow :=
  if jsFalsyOpt body.conversation_history || jsFalsyOpt body.event_log then
    ((400, some "Missing required fields: conversation_history, event_log"), db)
  else
    let ipn := jsOrStr body.interviewer_prompt_name "interviewer"
    let upn := jsOrStr body.simulated_user_prompt_name "candidate"
    let rd : RunData :=
      { mode := body.mode
      , conversation_history := body.conversation_history
      , event_log := body.event_log
      , interviewer_prompt_id := promptId ipn
      , simulated_user_prompt_id := promptId upn
      , interviewer_prompt_name := ipn
      , simulated_user_prompt_name := upn }
    match saveBenchmarkRun runId rd createdAt db with
    | .ok (_, db2) => ((200, none), db2)
    | .error _ => ((500, some "Failed to save benchmark run"), db)

/-- `GET /api/benchmark-runs/:run_id` (server.js:277-291). -/
def getBenchmarkRunRoute (runId : String) (db : List DbRow) : Nat × Option RunRecord :=
  match getBenchmarkRun runId db with
  | .ok run => (200, some run)
  | .error e => (if jsIncludes e "not found" then 404 else 500, none)

/-! ## Supporting lemmas -/

theorem matchHead_iff (pat : List Char) :
    ∀ s, matchHead pat s = true ↔ ∃ r, s = pat ++ r := by
  induction pat with
  | nil =>
    intro s
    constructor
    · intro _; exact ⟨s, rfl⟩
    · intro _; rfl
  | cons p ps ih =>
    intro s
    cases s with
    | nil =>
      simp only [matchHead, List.cons_append]
      constructor
      · intro h; cases h
      · rintro ⟨r, hr⟩; cases hr
    | cons c cs =>
      simp only [matchHead, Bool.and_eq_true, beq_iff_eq, List.cons_append]
      rw [ih cs]
      constructor
      · rintro ⟨rfl, r, rfl⟩; exact ⟨r, rfl⟩
      · rintro ⟨r, hr⟩
        injection hr with h1 h2
        exact ⟨h1.symm, r, h2⟩

theorem hasSub_iff (pat : List Char) :
    ∀ s, hasSub pat s = true ↔ ∃ l r, s = l ++ pat ++ r := by
  intro s
  induction s with
  | nil =>
    simp only [hasSub]
    rw [matchHead_iff]
    constructor
    · rintro ⟨r, hr⟩; exact ⟨[], r, by simpa using hr⟩
    · rintro ⟨l, r, h⟩
      cases l with
      | nil => exact ⟨r, by simpa using h⟩
      | cons x xs => cases h
  | cons c cs ih =>
    simp only [hasSub, Bool.or_eq_true]
    rw [matchHead_iff, ih]
    constructor
    · rintro (⟨r, hr⟩ | ⟨l, r, hr⟩)
      · exact ⟨[], r, by simpa using hr⟩
      · exact ⟨c :: l, r, by simp [hr]⟩
    · rintro ⟨l, r, hr⟩
      cases l with
      | nil => exact Or.inl ⟨r, by simpa using hr⟩
      | cons x xs =>
        injection hr with h1 h2
        exact Or.inr ⟨xs, r, h2⟩

/-- `jsIncludes` agrees with the propositional substring relation. -/
theorem jsIncludes_iff (s pat : String) :
    jsIncludes s pat = true ↔ SubStr pat s := by
  unfold jsIncludes SubStr
  rw [hasSub_iff]

/-- The (truthy) identifiers a list of events contributes to the
processed set. -/
def truthyIds : List ConversationEvent → List String
  | [] => []
  | e :: es =>
    match e.event_id with
    | some i => if i.isEmpty then truthyIds es else i :: truthyIds es
    | none => truthyIds es

/-- The event identifier recorded in a LogEntry's `data` object. -/
def logEventIdOf (en : LogEntry) : Option String :=
  match en.data with
  | .obj o =>
    match o.lookup "eventId" with
    | some (.str i) => some i
    | _ => none
  | _ => none

/-- How many LogEntries of `l` were logged for event identifier `i`. -/
def countLogsFor (i : String) (l : List LogEntry) : Nat :=
  l.countP (fun en => logEventIdOf en == some i)

/-- `countLogsFor` lifted to the orchestrator state. -/
def countLogsForState (i : String) (s : BenchState) : Nat :=
  match s.currentRun with
  | some run => countLogsFor i run.eventLog
  | none => 0

theorem logEventIdOf_eventLogData (t id : Nat) (src act : String) (e : ConversationEvent) :
    logEventIdOf ⟨t, src, act, eventLogData e, id⟩ = e.event_id := by
  cases h : e.event_id <;> simp [logEventIdOf, eventLogData, JsonO.lookup, h]

theorem countLogsFor_append (i : String) (l1 l2 : List LogEntry) :
    countLogsFor i (l1 ++ l2) = countLogsFor i l1 + countLogsFor i l2 := by
  simp [countLogsFor, List.countP_append]

/-- Effect of the `forEach` body on the run: one LogEntry appended, the
truthy id (if any) appended to the processed set, everything else
untouched. -/
theorem processNewEvent_spec (e : ConversationEvent) (s : BenchState) (run : Run)
    (hs : s.currentRun = some run) :
    ∃ run', (processNewEvent e s).currentRun = some run' ∧
      run'.eventLog.length = run.eventLog.length + 1 ∧
      (∀ i, countLogsFor i run'.eventLog =
        countLogsFor i run.eventLog + (if e.event_id == some i then 1 else 0)) ∧
      run'.processedEventIds = run.processedEventIds ++ truthyIds [e] ∧
      run'.transcript = run.transcript ∧
      run'.status = run.status ∧
      run'.id = run.id ∧
      (processNewEvent e s).isRunning = s.isRunning ∧
      (processNewEvent e s).appendCount = s.appendCount ∧
      (processNewEvent e s).simUser = s.simUser ∧
      (processNewEvent e s).currentEvents = s.currentEvents := by
  have hcount : ∀ (t id : Nat) (log : List LogEntry),
      ∀ i, countLogsFor i (log ++ [⟨t, "realtime_api", e.type, eventLogData e, id⟩]) =
        countLogsFor i log + (if e.event_id == some i then 1 else 0) := by
    intro t id log i
    rw [countLogsFor_append]
    simp [countLogsFor, List.countP, List.countP.go, logEventIdOf_eventLogData]
  cases hid : e.event_id with
  | none =>
    simp only [processNewEvent, logEvent, hs, hid]
    refine ⟨_, rfl, by simp, ?_, by simp [truthyIds, hid], by simp, by simp, by simp,
      by simp, by simp, by simp, by simp⟩
    intro i
    have h2 := hcount s.tick s.tick run.eventLog i
    rw [hid] at h2
    simpa using h2
  | some i0 =>
    by_cases hE : i0.isEmpty
    · simp only [processNewEvent, logEvent, hs, hid, hE, if_pos]
      refine ⟨_, rfl, by simp, ?_, by simp [truthyIds, hid, hE], by simp, by simp, by simp,
        by simp, by simp, by simp, by simp⟩
      intro i
      have h2 := hcount s.tick s.tick run.eventLog i
      rw [hid] at h2
      simpa using h2
    · simp only [processNewEvent, logEvent, hs, hid, hE, if_neg]
      refine ⟨_, rfl, by simp, ?_, by simp [truthyIds, hid, hE], by simp, by simp, by simp,
        by simp, by simp, by simp, by simp⟩
      intro i
      have h2 := hcount s.tick s.tick run.eventLog i
      rw [hid] at h2
      simpa using h2

theorem truthyIds_cons (e : ConversationEvent) (es : List ConversationEvent) :
    truthyIds (e :: es) = truthyIds [e] ++ truthyIds es := by
  cases h : e.event_id with
  | none => simp [truthyIds, h]
  | some i =>
    by_cases hE : i.isEmpty <;> simp [truthyIds, h, hE]

/-- Effect of the whole `forEach` loop. -/
theorem foldl_processNewEvent (l : List ConversationEvent) :
    ∀ s run, s.currentRun = some run →
      ∃ run', (l.foldl (fun st e => processNewEvent e st) s).currentRun = some run' ∧
        run'.eventLog.length = run.eventLog.length + l.length ∧
        (∀ i, countLogsFor i run'.eventLog =
          countLogsFor i run.eventLog + l.countP (fun e => e.event_id == some i)) ∧
        run'.processedEventIds = run.processedEventIds ++ truthyIds l ∧
        run'.transcript = run.transcript ∧
        run'.status = run.status ∧
        run'.id = run.id ∧
        (l.foldl (fun st e => processNewEvent e st) s).isRunning = s.isRunning ∧
        (l.foldl (fun st e => processNewEvent e st) s).appendCount = s.appendCount ∧
        (l.foldl (fun st e => processNewEvent e st) s).simUser = s.simUser ∧
        (l.foldl (fun st e => processNewEvent e st) s).currentEvents = s.currentEvents := by
  induction l with
  | nil =>
    intro s run hs
    exact ⟨run, by simpa using hs, by simp, by simp [List.countP, List.countP.go],
      by simp [truthyIds], rfl, rfl, rfl, rfl, rfl, rfl, rfl⟩
  | cons e es ih =>
    intro s run hs
    obtain ⟨run1, h1, hlen1, hcnt1, hproc1, htr1, hst1, hid1, hrun1, hac1, hsu1, hce1⟩ :=
      processNewEvent_spec e s run hs
    obtain ⟨run2, h2, hlen2, hcnt2, hproc2, htr2, hst2, hid2, hrun2, hac2, hsu2, hce2⟩ :=
      ih (processNewEvent e s) run1 h1
    refine ⟨run2, by simpa using h2, ?_, ?_, ?_, ?_, ?_, ?_, ?_, ?_, ?_, ?_⟩
    · have hL : (e :: es).length = es.length + 1 := rfl
      omega
    · intro i
      have hc1 := hcnt1 i
      have hc2 := hcnt2 i
      rw [List.countP_cons]
      omega
    · rw [hproc2, hproc1, truthyIds_cons, List.append_assoc]
      simp [truthyIds]
      cases h : e.event_id with
      | none => simp
      | some i => by_cases hE : i.isEmpty <;> simp [hE]
    · rw [htr2, htr1]
    · rw [hst2, hst1]
    · rw [hid2, hid1]
    · rw [List.foldl_cons, hrun2, hrun1]
    · rw [List.foldl_cons, hac2, hac1]
    · rw [List.foldl_cons, hsu2, hsu1]
    · rw [List.foldl_cons, hce2, hce1]

/-- Summary of one `updateEventLog` call on a live run: exactly one
LogEntry per event passing the freshness filter, processed set extended
by the truthy ids of those events, transcript and status untouched. -/
theorem updateEventLog_spec (events : List ConversationEvent) (s : BenchState) (run : Run)
    (hs : s.currentRun = some run) :
    ∃ run', (updateEventLog events s).currentRun = some run' ∧
      run'.eventLog.length = run.eventLog.length
        + (events.filter (freshEvent run.processedEventIds)).length ∧
      (∀ i, countLogsFor i run'.eventLog = countLogsFor i run.eventLog
        + (events.filter (freshEvent run.processedEventIds)).countP
            (fun e => e.event_id == some i)) ∧
      run'.processedEventIds = run.processedEventIds
        ++ truthyIds (events.filter (freshEvent run.processedEventIds)) ∧
      run'.transcript = run.transcript ∧
      run'.status = run.status ∧
      run'.id = run.id ∧
      (updateEventLog events s).isRunning = s.isRunning ∧
      (updateEventLog events s).appendCount = s.appendCount ∧
      (updateEventLog events s).simUser = s.simUser ∧
      (updateEventLog events s).currentEvents = s.currentEvents := by
  have : updateEventLog events s =
      (events.filter (freshEvent run.processedEventIds)).foldl
        (fun st e => processNewEvent e st) s := by
    simp [updateEventLog, hs]
  rw [this]
  exact foldl_processNewEvent _ s run hs


/-! ## Claim C9: events without an identifier are never deduplicated -/

theorem mem_filter_fresh (e : ConversationEvent) (events : List ConversationEvent)
    (p : List String) (hid : e.event_id = none) (he : e ∈ events) :
    e ∈ events.filter (freshEvent p) :=
  List.mem_filter.mpr ⟨he, by simp [freshEvent, hid]⟩

/-- C9: an event whose `event_id` is absent is never added to the
processed-event-id set, so every `updateEventLog` call whose list
contains it appends a fresh LogEntry for it: after two successive calls
both containing such an event, the log has grown by at least one entry
in each call, and the processed set never receives an identifier for
it. -/
theorem c9_idless_events_relogged (s : BenchState) (run : Run)
    (events1 events2 : List ConversationEvent) (e : ConversationEvent)
    (hs : s.currentRun = some run) (hid : e.event_id = none)
    (h1 : e ∈ events1) (h2 : e ∈ events2) :
    ∃ run1 run2,
      (updateEventLog events1 s).currentRun = some run1 ∧
      (updateEventLog events2 (updateEventLog events1 s)).currentRun = some run2 ∧
      run.eventLog.length + 1 ≤ run1.eventLog.length ∧
      run1.eventLog.length + 1 ≤ run2.eventLog.length := by
  obtain ⟨run1, hr1, hlen1, _, _, _, _, _, _, _, _, _⟩ :=
    updateEventLog_spec events1 s run hs
  obtain ⟨run2, hr2, hlen2, _, _, _, _, _, _, _, _, _⟩ :=
    updateEventLog_spec events2 (updateEventLog events1 s) run1 hr1
  have hm1 : 1 ≤ (events1.filter (freshEvent run.processedEventIds)).length :=
    List.length_pos_of_mem (mem_filter_fresh e events1 _ hid h1)
  have hm2 : 1 ≤ (events2.filter (freshEvent run1.processedEventIds)).length :=
    List.length_pos_of_mem (mem_filter_fresh e events2 _ hid h2)
  exact ⟨run1, run2, hr1, hr2, by omega, by omega⟩

def c9Run : Run :=
  { id := "r9", startTime := 0, endTime := none, transcript := [], eventLog := []
  , status := "running", processedEventIds := []
  , selectedInterviewerPrompt := "interviewer", selectedUserPrompt := "candidate" }

def c9State : BenchState :=
  { isRunning := true, simUser := SimUser.new, currentRun := some c9Run
  , currentEvents := [], tick := 0, appendCount := 0, outbox := [], savedPayloads := [] }

def c9Ev : ConversationEvent := { type := "output_audio_buffer.started" }

theorem c9_idless_events_relogged_witness :
    ∃ run1 run2,
      (updateEventLog [c9Ev] c9State).currentRun = some run1 ∧
      (updateEventLog [c9Ev] (updateEventLog [c9Ev] c9State)).currentRun = some run2 ∧
      c9Run.eventLog.length + 1 ≤ run1.eventLog.length ∧
      run1.eventLog.length + 1 ≤ run2.eventLog.length :=
  c9_idless_events_relogged c9State c9Run [c9Ev] [c9Ev] c9Ev rfl rfl
    (by decide) (by decide)

/-! ## Claim C1: idempotent ingestion under re-delivery -/

/-- The per-run deduplication invariant: every non-empty identifier has
at most one LogEntry, and an identifier with a LogEntry is in the
processed set. -/
def C1Inv (r : Run) : Prop :=
  ∀ i : String, i ≠ "" →
    countLogsFor i r.eventLog ≤ 1 ∧
    (1 ≤ countLogsFor i r.eventLog → i ∈ r.processedEventIds)

theorem countP_id_filter_zero (events : List ConversationEvent) (p : List String)
    (i : String) (hp : i ∈ p) :
    (events.filter (freshEvent p)).countP (fun e => e.event_id == some i) = 0 := by
  rw [List.countP_eq_zero]
  intro e he
  have hfresh := (List.mem_filter.mp he).2
  intro hbeq
  have hei : e.event_id = some i := by simpa using hbeq
  simp only [freshEvent, hei, Bool.not_eq_true'] at hfresh
  simp at hfresh
  exact hfresh hp

theorem mem_truthyIds_of (l : List ConversationEvent) (e : ConversationEvent)
    (i : String) (he : e ∈ l) (hid : e.event_id = some i) (hne : i ≠ "") :
    i ∈ truthyIds l := by
  induction l with
  | nil => cases he
  | cons x xs ih =>
    rcases List.mem_cons.mp he with rfl | hxs
    · rw [truthyIds_cons]
      have hE : i.isEmpty = false := by
        cases hI : i.isEmpty
        · rfl
        · exact absurd ((String.isEmpty_iff i).mp hI) hne
      simp [truthyIds, hid, hE]
    · rw [truthyIds_cons]
      exact List.mem_append.mpr (Or.inr (ih hxs))

theorem count_truthyIds_ge (l : List ConversationEvent) (i : String) (hne : i ≠ "") :
    l.countP (fun e => e.event_id == some i) ≤ (truthyIds l).count i := by
  induction l with
  | nil => simp [truthyIds]
  | cons e es ih =>
    rw [List.countP_cons, truthyIds_cons]
    rw [List.count_append]
    cases hid : e.event_id with
    | none => simp [truthyIds, hid]; omega
    | some j =>
      by_cases hj : j = i
      · subst hj
        have hE : j.isEmpty = false := by
          cases hI : j.isEmpty
          · rfl
          · exact absurd ((String.isEmpty_iff j).mp hI) hne
        simp [truthyIds, hid, hE]
        omega
      · have hb : (some j == some i) = false := by simpa using hj
        rw [hb]
        have hc0 : List.count i (truthyIds [e]) = 0 := by
          cases hI : j.isEmpty
          · have ht : truthyIds [e] = [j] := by simp [truthyIds, hid, hI]
            rw [ht, List.count_eq_zero]
            simp only [List.mem_singleton]
            exact fun h => hj h.symm
          · have ht : truthyIds [e] = [] := by simp [truthyIds, hid, hI]
            rw [ht]; rfl
        rw [hc0]
        simp only [Bool.false_eq_true, if_false]
        omega

/-- C1 (amended): an event whose `event_id` is already in the processed
set at the start of an `updateEventLog` call contributes no LogEntry in
that call; and — provided each single delivered list carries each
non-empty identifier at most once — the per-run invariant
"at most one LogEntry per event identifier" is preserved.  (Two
occurrences of the same id inside one delivered list are each logged,
which is the only failure of the claim as stated; see the
counterexample.) -/
theorem c1_dedupe_amended (s : BenchState) (run : Run)
    (events : List ConversationEvent)
    (hs : s.currentRun = some run) (hInv : C1Inv run)
    (hnd : (truthyIds events).Nodup) :
    (∀ i, i ∈ run.processedEventIds →
       countLogsForState i (updateEventLog events s) = countLogsFor i run.eventLog)
    ∧ ∀ run', (updateEventLog events s).currentRun = some run' → C1Inv run' := by
  obtain ⟨run', hr, hlen, hcnt, hproc, _, _, _, _, _, _, _⟩ :=
    updateEventLog_spec events s run hs
  constructor
  · intro i hip
    have h0 := countP_id_filter_zero events run.processedEventIds i hip
    have := hcnt i
    simp [countLogsForState, hr]
    omega
  · intro run2 hr2
    rw [hr] at hr2
    injection hr2 with hr2
    subst hr2
    intro i hne
    have hci := hcnt i
    by_cases hip : i ∈ run.processedEventIds
    · have h0 := countP_id_filter_zero events run.processedEventIds i hip
      have hI := hInv i hne
      refine ⟨by omega, fun _ => ?_⟩
      rw [hproc]
      exact List.mem_append.mpr (Or.inl hip)
    · have hzero : countLogsFor i run.eventLog = 0 := by
        have hI := hInv i hne
        by_cases h1 : 1 ≤ countLogsFor i run.eventLog
        · exact absurd (hI.2 h1) hip
        · omega
      have hfil : (events.filter (freshEvent run.processedEventIds)).countP
          (fun e => e.event_id == some i) ≤ events.countP (fun e => e.event_id == some i) := by
        rw [List.countP_filter]
        exact List.countP_mono_left (fun e _ h => by
          simp only [Bool.and_eq_true] at h
          exact h.1)
      have hev : events.countP (fun e => e.event_id == some i) ≤ 1 := by
        have := count_truthyIds_ge events i hne
        have hnodup := List.nodup_iff_count_le_one.mp hnd i
        omega
      refine ⟨by omega, fun hc => ?_⟩
      have hpos : 0 < (events.filter (freshEvent run.processedEventIds)).countP
          (fun e => e.event_id == some i) := by omega
      obtain ⟨e, hef, hep⟩ := List.countP_pos_iff.mp hpos
      have hide : e.event_id = some i := by simpa using hep
      rw [hproc]
      exact List.mem_append.mpr (Or.inr
        (mem_truthyIds_of _ e i hef hide hne))


def c1Ev : ConversationEvent :=
  { type := "conversation.item.created", event_id := some "evt_1" }

def c1Run : Run :=
  { id := "r1", startTime := 0, endTime := none, transcript := [], eventLog := []
  , status := "running", processedEventIds := []
  , selectedInterviewerPrompt := "interviewer", selectedUserPrompt := "candidate" }

def c1State : BenchState :=
  { isRunning := true, simUser := SimUser.new, currentRun := some c1Run
  , currentEvents := [], tick := 0, appendCount := 0, outbox := [], savedPayloads := [] }

/-- C1 counterexample: one `updateEventLog` call whose list delivers the
same `event_id` twice converts that identifier into two LogEntries —
the filter runs against the processed set as of call entry, so the
second occurrence is not deduplicated. -/
theorem c1_counterexample :
    ¬ (countLogsForState "evt_1" (updateEventLog [c1Ev, c1Ev] c1State) ≤ 1) := by
  decide

def c1RunB : Run :=
  { id := "r1", startTime := 0, endTime := none, transcript := []
  , eventLog := [⟨0, "realtime_api", "conversation.item.created", eventLogData c1Ev, 0⟩]
  , status := "running", processedEventIds := ["evt_1"]
  , selectedInterviewerPrompt := "interviewer", selectedUserPrompt := "candidate" }

def c1StateB : BenchState :=
  { isRunning := true, simUser := SimUser.new, currentRun := some c1RunB
  , currentEvents := [], tick := 1, appendCount := 0, outbox := [], savedPayloads := [] }

theorem c1InvB : C1Inv c1RunB := by
  intro i hne
  constructor
  · exact List.countP_le_length _
  · intro hc
    by_cases hie : i = "evt_1"
    · subst hie; simp [c1RunB]
    · exfalso
      have h0 : countLogsFor i c1RunB.eventLog = 0 := by
        have hb : (logEventIdOf
            ⟨0, "realtime_api", "conversation.item.created", eventLogData c1Ev, 0⟩
              == some i) = false := by
          have : logEventIdOf
              ⟨0, "realtime_api", "conversation.item.created", eventLogData c1Ev, 0⟩
                = some "evt_1" := by decide
          rw [this]
          simpa using fun h => hie h.symm
        simp [countLogsFor, c1RunB, List.countP, List.countP.go, hb]
      omega

theorem c1_dedupe_amended_witness :
    (∀ i, i ∈ c1RunB.processedEventIds →
       countLogsForState i (updateEventLog [c1Ev] c1StateB) = countLogsFor i c1RunB.eventLog)
    ∧ ∀ run', (updateEventLog [c1Ev] c1StateB).currentRun = some run' → C1Inv run' :=
  c1_dedupe_amended c1StateB c1RunB [c1Ev] rfl c1InvB (by decide)


/-! ## Claim C3: `generateResponse` never throws -/

theorem initConfig_isActive (fetched : Option PromptConfig) (u : SimUser) :
    (u.initConfig fetched).isActive = u.isActive := by
  unfold SimUser.initConfig
  split
  · rfl
  · cases fetched <;> rfl

/-- C3: `generateResponse` is total on every oracle outcome: it returns
`null` exactly when the respondent is inactive, and when the
chat-completion call throws it returns the fixed fallback string
instead of propagating the error. -/
theorem c3_generateResponse_never_throws (fetched : Option PromptConfig)
    (ai : List ChatTurn → Except String String) (msg : String) (u : SimUser) :
    ((SimUser.generateResponse fetched ai msg u).1 = none ↔ u.isActive = false)
    ∧ (u.isActive = true → ∀ err, (∀ msgs, ai msgs = .error err) →
        (SimUser.generateResponse fetched ai msg u).1 = some fallbackReply) := by
  have hact := initConfig_isActive fetched u
  cases hA : u.isActive with
  | false =>
    have hA1 : (u.initConfig fetched).isActive = false := by rw [hact, hA]
    constructor
    · unfold SimUser.generateResponse
      simp [hA1]
    · intro h; simp at h
  | true =>
    have hA1 : (u.initConfig fetched).isActive = true := by rw [hact, hA]
    constructor
    · constructor
      · intro h
        exfalso
        simp only [SimUser.generateResponse, hA1] at h
        simp at h
        split at h <;> simp at h
      · intro h; simp at h
    · intro _ err hfail
      simp [SimUser.generateResponse, hA1, hfail]

def c3User : SimUser :=
  { initialized := true, candidateConfig := some fallbackConfig
  , systemPrompt := fallbackPrompt, conversationHistory := []
  , isActive := true, lastInterviewerMessage := "" }

theorem c3_generateResponse_never_throws_witness :
    ((SimUser.generateResponse (some fallbackConfig)
        (fun (_ : List ChatTurn) => (Except.error "network down" : Except String String))
        "Tell me about yourself." c3User).1 = none ↔ c3User.isActive = false)
    ∧ (c3User.isActive = true → ∀ err,
        (∀ msgs, (fun (_ : List ChatTurn) =>
            (Except.error "network down" : Except String String)) msgs = .error err) →
        (SimUser.generateResponse (some fallbackConfig)
          (fun (_ : List ChatTurn) => (Except.error "network down" : Except String String))
          "Tell me about yourself." c3User).1 = some fallbackReply) :=
  c3_generateResponse_never_throws (some fallbackConfig)
    (fun (_ : List ChatTurn) => (Except.error "network down" : Except String String))
    "Tell me about yourself." c3User


/-! ## Claim C4: the conversation-ended predicate -/

/-- Modelled from the spec's words, for comparison with the code:
"extract any transcript/text content field present; if the lowercased
content contains the exact configured termination phrase, conversation
has ended". -/
def specConversationEnded (events : List ConversationEvent) : Bool :=
  (events.take 10).any fun e =>
    jsIncludes (asciiLower (e.transcript.getD "")) terminationPhrase ||
    jsIncludes (asciiLower (e.text.getD "")) terminationPhrase

def c4Event : ConversationEvent :=
  { type := "response.done", text := some "Thank you. That completes the interview." }

/-- C4 counterexample: an event carrying the termination phrase in its
`text` field (and no `transcript`) satisfies the claimed
transcript-or-text condition, yet `isConversationEnded` returns
`false` — the code consults only the `transcript` field. -/
theorem c4_counterexample :
    isConversationEnded [c4Event] = false ∧ specConversationEnded [c4Event] = true := by
  decide

/-- C4 (amended): `isConversationEnded` returns `true` iff among the
first ten events of the list (the most recent ten, the feed being
most-recent-first) some event has a `transcript` field whose lower-cased
content contains the exact phrase "that completes the interview" as a
substring — a case-insensitive substring match with no tokenization; the
`text` field is not consulted. -/
theorem c4_conversation_ended_amended (events : List ConversationEvent) :
    isConversationEnded events = true ↔
      ∃ e ∈ events.take 10,
        SubStr terminationPhrase (asciiLower (e.transcript.getD "")) := by
  unfold isConversationEnded
  rw [List.any_eq_true]
  constructor
  · rintro ⟨e, he, hp⟩
    exact ⟨e, he, (jsIncludes_iff _ _).mp hp⟩
  · rintro ⟨e, he, hp⟩
    exact ⟨e, he, (jsIncludes_iff _ _).mpr hp⟩

/-! ## Claim C7: latest-agent-utterance extraction -/

/-- Modelled from the spec's words, for comparison with the code:
"return the content of the first event whose type matches the
audio-transcript-completed discriminator; empty string if none
found". -/
def specExtractLatest (events : List ConversationEvent) : String :=
  match (events.take 10).find? (fun e => e.type == transcriptDoneType) with
  | some e => e.transcript.getD ""
  | none => ""

def c7Ev1 : ConversationEvent :=
  { type := "response.output_audio_transcript.done", transcript := some " " }

def c7Ev2 : ConversationEvent :=
  { type := "response.output_audio_transcript.done", transcript := some "hello" }

/-- C7 counterexample: when the first type-matching event has a
whitespace-only transcript, the code skips it and returns the trimmed
transcript of a later matching event, not the content of the first
matching event. -/
theorem c7_counterexample :
    extractLatestInterviewerMessage [c7Ev1, c7Ev2] = "hello" ∧
    specExtractLatest [c7Ev1, c7Ev2] = " " := by
  decide

/-- C7 (amended): the extraction returns the trimmed transcript of the
first event among the first ten whose type matches the discriminator
and whose transcript contains a non-whitespace character; events whose
transcript is absent, empty or whitespace-only are skipped, and the
empty string is returned when no event qualifies. -/
theorem c7_extract_amended (events : List ConversationEvent) :
    extractLatestInterviewerMessage events =
      match (events.take 10).find? (fun e =>
          e.type == transcriptDoneType && !(jsTrim (e.transcript.getD "")).isEmpty) with
      | some e => jsTrim (e.transcript.getD "")
      | none => "" := by
  unfold extractLatestInterviewerMessage
  generalize events.take 10 = l
  induction l with
  | nil => rfl
  | cons e rest ih =>
    have h0 : ("" : String).isEmpty = true := rfl
    unfold extractFrom
    by_cases ht : (e.type == transcriptDoneType) = true
    · by_cases htr : truthyStr e.transcript = true
      · by_cases hemp : (jsTrim (e.transcript.getD "")).isEmpty = true
        · simp [List.find?_cons, ht, htr, hemp, ih]
        · simp [List.find?_cons, ht, htr, hemp]
      · have hget : e.transcript.getD "" = "" := by
          cases htc : e.transcript with
          | none => rfl
          | some v =>
            have hT : v.isEmpty = true := by
              revert htr; simp [truthyStr, htc]
            simp [Option.getD, (String.isEmpty_iff v).mp hT]
        have hejs : jsTrim "" = "" := rfl
        simp [List.find?_cons, ht, htr, hget, hejs, ih, h0]
    · have hejs : jsTrim "" = "" := rfl
      simp [List.find?_cons, ht, ih, h0, hejs]


/-! ## Claim C5: the should-respond predicate and reply scheduling -/

theorem updateEventLog_simUser (events : List ConversationEvent) (s : BenchState) :
    (updateEventLog events s).simUser = s.simUser := by
  cases hs : s.currentRun with
  | none => simp [updateEventLog, hs]
  | some run =>
    obtain ⟨_, _, _, _, _, _, _, _, _, _, hsu, _⟩ := updateEventLog_spec events s run hs
    exact hsu

theorem updateEventLog_isRunning (events : List ConversationEvent) (s : BenchState) :
    (updateEventLog events s).isRunning = s.isRunning := by
  cases hs : s.currentRun with
  | none => simp [updateEventLog, hs]
  | some run =>
    obtain ⟨_, _, _, _, _, _, _, _, hrun, _, _, _⟩ := updateEventLog_spec events s run hs
    exact hrun

/-- The action of the last LogEntry of the run as it stands right after
the tick's `updateEventLog` call — the value `monitorConversation`
compares against the audio-output-finished marker. -/
def lastLogAction (events : List ConversationEvent) (s : BenchState) : Option String :=
  match (updateEventLog events { s with currentEvents := events }).currentRun with
  | some run => run.eventLog.getLast?.map (fun l => l.action)
  | none => none

/-- C5 (amended): `shouldRespond` is `false` when the respondent is
inactive or the event list is empty and `true` for every non-empty list
while active; and a monitoring tick on a live run schedules a respondent
reply iff `shouldRespond` holds, the conversation-ended predicate does
NOT hold (the termination branch returns before the reply check), and
the latest LogEntry's action equals 'output_audio_buffer.stopped'. -/
theorem c5_should_respond_amended :
    (∀ events, shouldRespond false events = false)
    ∧ (∀ a, shouldRespond a [] = false)
    ∧ (∀ e es, shouldRespond true (e :: es) = true)
    ∧ (∀ s events, s.isRunning = true →
        ((monitorConversation events s).scheduledResponse = true ↔
          (shouldRespond s.simUser.isActive events = true ∧
           isConversationEnded events = false ∧
           lastLogAction events s = some audioStoppedMarker))) := by
  refine ⟨?_, ?_, ?_, ?_⟩
  · intro events; simp [shouldRespond]
  · intro a; simp [shouldRespond]
  · intro e es
    unfold shouldRespond
    cases h : (e :: es).getLast? with
    | none => simp [h]
    | some x => by_cases hx : (x.type == "response.output_audio.done") = true <;> simp [h, hx]
  · intro s events hrun
    obtain ⟨sir, ssu, scr, sce, stk, sac, sob, ssp⟩ := s
    simp only at hrun
    subst hrun
    have hsu := updateEventLog_simUser events
      { isRunning := true, simUser := ssu, currentRun := scr, currentEvents := events
      , tick := stk, appendCount := sac, outbox := sob, savedPayloads := ssp }
    unfold monitorConversation lastLogAction
    by_cases hend : isConversationEnded events = true
    · simp [hend]
    · simp only [Bool.not_eq_true] at hend
      by_cases hsr : shouldRespond ssu.isActive events = true
      · cases hc : (updateEventLog events
            { isRunning := true, simUser := ssu, currentRun := scr, currentEvents := events
            , tick := stk, appendCount := sac, outbox := sob, savedPayloads := ssp }).currentRun with
        | none => simp [hend, hsr, hsu, hc]
        | some run =>
          cases hl : run.eventLog.getLast? with
          | none => simp [hend, hsr, hsu, hc, hl]
          | some lastLog =>
            by_cases hbe : (lastLog.action == audioStoppedMarker) = true
            · have hq : lastLog.action = audioStoppedMarker := by simpa using hbe
              simp [hend, hsr, hsu, hc, hl, hbe, hq]
            · have hq : ¬ lastLog.action = audioStoppedMarker := by simpa using hbe
              simp [hend, hsr, hsu, hc, hl, hbe, hq]
      · simp [hend, hsr, hsu]

def c5Sim : SimUser := { SimUser.new with isActive := true }

def c5Run : Run :=
  { id := "r5", startTime := 0, endTime := none, transcript := [], eventLog := []
  , status := "running", processedEventIds := []
  , selectedInterviewerPrompt := "interviewer", selectedUserPrompt := "candidate" }

def c5State : BenchState :=
  { isRunning := true, simUser := c5Sim, currentRun := some c5Run
  , currentEvents := [], tick := 0, appendCount := 0, outbox := [], savedPayloads := [] }

def c5EvPhrase : ConversationEvent :=
  { type := "response.output_audio_transcript.done", event_id := some "e1"
  , transcript := some "That completes the interview." }

def c5EvStop : ConversationEvent :=
  { type := "output_audio_buffer.stopped", event_id := some "e2" }

/-- C5 counterexample: on a tick where the termination phrase is present
and the last LogEntry's action is the audio-stopped marker, the claimed
iff fails — the predicate holds and the marker matches, yet no reply is
scheduled because the termination branch returns first. -/
theorem c5_counterexample :
    ¬ ((monitorConversation [c5EvPhrase, c5EvStop] c5State).scheduledResponse = true ↔
       (shouldRespond c5State.simUser.isActive [c5EvPhrase, c5EvStop] = true ∧
        lastLogAction [c5EvPhrase, c5EvStop] c5State = some audioStoppedMarker)) := by
  decide

theorem c5_should_respond_amended_witness :
    (monitorConversation [c5EvStop] c5State).scheduledResponse = true ↔
      (shouldRespond c5State.simUser.isActive [c5EvStop] = true ∧
       isConversationEnded [c5EvStop] = false ∧
       lastLogAction [c5EvStop] c5State = some audioStoppedMarker) :=
  c5_should_respond_amended.2.2.2 c5State [c5EvStop] rfl


/-! ## Claim C2: termination is monotonic, completion is one-way -/

/-- C2: on a live run, a tick that observes the termination phrase
schedules `endRun` (and itself leaves the run running — completion
happens when the one-shot timer fires); `endRun` on a live run stops it
and marks the run `completed`; `endRun` on a stopped state is the
identity (the transition happens exactly once); and once the state is
not running, every step of the machine — further ticks, timer firings —
is the identity, so no TranscriptEntry or LogEntry is appended and no
event processing occurs after completion. -/
theorem c2_completion_one_way :
    (∀ s run events, s.isRunning = true → s.currentRun = some run →
       isConversationEnded events = true →
       (monitorConversation events s).scheduledEnd = true ∧
       (monitorConversation events s).state.isRunning = true)
    ∧ (∀ s run, s.isRunning = true → s.currentRun = some run →
        (endRun s).isRunning = false ∧
        ∃ r2, (endRun s).currentRun = some r2 ∧ r2.status = "completed")
    ∧ (∀ s, s.isRunning = false → endRun s = s)
    ∧ (∀ s st, s.isRunning = false → applyStep st s = s) := by
  refine ⟨?_, ?_, ?_, ?_⟩
  · intro s run events hrun hcr hend
    obtain ⟨sir, ssu, scr, sce, stk, sac, sob, ssp⟩ := s
    simp only at hrun hcr
    subst hrun
    subst hcr
    obtain ⟨run2, hc2, _, _, _, _, _, _, hir, _, _, _⟩ :=
      updateEventLog_spec events
        { isRunning := true, simUser := ssu, currentRun := some run, currentEvents := events
        , tick := stk, appendCount := sac, outbox := sob, savedPayloads := ssp } run rfl
    constructor
    · simp [monitorConversation, hend]
    · simp only [monitorConversation, hend]
      simp [logEvent, hc2, hir]
  · intro s run hrun hcr
    constructor
    · simp [endRun, hcr, hrun, logEvent]
    · simp [endRun, hcr, hrun, logEvent]
  · intro s hrun
    cases hcr : s.currentRun with
    | none => simp [endRun, hcr]
    | some run => simp [endRun, hcr, hrun]
  · intro s st hrun
    cases st with
    | monitor events => simp [applyStep, monitorConversation, hrun]
    | endTimer =>
      cases hcr : s.currentRun with
      | none => simp [applyStep, endRun, hcr]
      | some run => simp [applyStep, endRun, hcr, hrun]
    | respTimer fetched ai => simp [applyStep, hrun]
    | greetTimer => simp [applyStep, hrun]

theorem c2_completion_one_way_witness :
    ((monitorConversation [c5EvPhrase] c5State).scheduledEnd = true ∧
     (monitorConversation [c5EvPhrase] c5State).state.isRunning = true)
    ∧ ((endRun c5State).isRunning = false ∧
       ∃ r2, (endRun c5State).currentRun = some r2 ∧ r2.status = "completed")
    ∧ endRun initBench = initBench
    ∧ applyStep .endTimer initBench = initBench :=
  ⟨c2_completion_one_way.1 c5State c5Run [c5EvPhrase] rfl rfl (by decide),
   c2_completion_one_way.2.1 c5State c5Run rfl rfl,
   c2_completion_one_way.2.2.1 initBench rfl,
   c2_completion_one_way.2.2.2 initBench .endTimer rfl⟩


/-! ## Claim C10: PUT handler is atomic on invalid input -/

/-- C10: when `conversation_history` or `event_log` is missing (falsy)
in the request body, the PUT handler responds 400 with the error
message and leaves the database untouched — `saveBenchmarkRun` is never
reached, so no row is inserted. -/
theorem c10_put_invalid_atomic (promptId : String → String) (runId : String)
    (body : PutBody) (createdAt : Nat) (db : List DbRow)
    (h : (jsFalsyOpt body.conversation_history || jsFalsyOpt body.event_log) = true) :
    putBenchmarkRun promptId runId body createdAt db =
      ((400, some "Missing required fields: conversation_history, event_log"), db) := by
  unfold putBenchmarkRun
  simp [h]

def c10Body : PutBody :=
  { mode := some "benchmark", conversation_history := none
  , event_log := some (.arr .nil)
  , interviewer_prompt_name := some "interviewer"
  , simulated_user_prompt_name := some "candidate" }

theorem c10_put_invalid_atomic_witness :
    putBenchmarkRun (fun _ => "pid") "run-1" c10Body 5 [] =
      ((400, some "Missing required fields: conversation_history, event_log"), []) :=
  c10_put_invalid_atomic (fun _ => "pid") "run-1" c10Body 5 [] (by decide)

/-! ## Claim C6: `num_turns` equals the conversation-history length
equals the number of transcript appends -/

/-- JSON encoding of one `conversation_history` entry as it crosses the
wire (timestamps, `Nat` ghosts here, travel as JSON numbers). -/
def encodeConvEntry (en : ConvHistEntry) : Json :=
  .obj (.cons "speaker" (.str en.speaker)
    (.cons "content" (.str en.content)
      (.cons "timestamp" (.num en.timestamp) .nil)))

/-- JSON encoding of the whole `conversation_history` array. -/
def encodeConvHistory (l : List ConvHistEntry) : Json :=
  .arr (JsonA.ofList (l.map encodeConvEntry))

theorem JsonA_length_ofList (l : List Json) : (JsonA.ofList l).length = l.length := by
  induction l with
  | nil => rfl
  | cons j js ih => simp [JsonA.ofList, JsonA.length, ih]

/-- The ghost `appendCount` agrees with the live run's transcript
length. -/
def TranscriptCountInv (s : BenchState) : Prop :=
  ∀ run, s.currentRun = some run → run.transcript.length = s.appendCount

theorem addToTranscript_inv (role message : String) (s : BenchState)
    (h : TranscriptCountInv s) : TranscriptCountInv (addToTranscript role message s) := by
  intro run2 hr
  cases hs : s.currentRun with
  | none => simp [addToTranscript, hs] at hr
  | some run =>
    have hlen := h run hs
    simp only [addToTranscript, hs, Option.some.injEq] at hr ⊢
    subst hr
    simp [hlen]

theorem logEvent_inv (src act : String) (d : Json) (s : BenchState)
    (h : TranscriptCountInv s) : TranscriptCountInv (logEvent src act d s) := by
  intro run2 hr
  cases hs : s.currentRun with
  | none => simp [logEvent, hs] at hr
  | some run =>
    have hlen := h run hs
    simp only [logEvent, hs, Option.some.injEq] at hr ⊢
    subst hr
    simp [hlen]

theorem updateEventLog_inv (events : List ConversationEvent) (s : BenchState)
    (h : TranscriptCountInv s) : TranscriptCountInv (updateEventLog events s) := by
  intro run2 hr
  cases hs : s.currentRun with
  | none => simp [updateEventLog, hs] at hr
  | some run =>
    obtain ⟨run', hc, _, _, _, htr, _, _, _, hac, _, _⟩ := updateEventLog_spec events s run hs
    rw [hc, Option.some.injEq] at hr
    subst hr
    rw [htr, hac]
    exact h run hs

theorem simUserSet_inv (su : SimUser) (s : BenchState)
    (h : TranscriptCountInv s) : TranscriptCountInv { s with simUser := su } := by
  intro run2 hr
  exact h run2 hr

theorem outboxSet_inv (xs : List String) (s : BenchState)
    (h : TranscriptCountInv s) : TranscriptCountInv { s with outbox := xs } := by
  intro run2 hr
  exact h run2 hr

theorem generateSimulatedResponse_inv (fetched : Option PromptConfig)
    (ai : List ChatTurn → Except String String) (s : BenchState)
    (h : TranscriptCountInv s) :
    TranscriptCountInv (generateSimulatedResponse fetched ai s) := by
  unfold generateSimulatedResponse
  have h1 := addToTranscript_inv "interviewer"
    (extractLatestInterviewerMessage s.currentEvents) s h
  set s1 := addToTranscript "interviewer"
    (extractLatestInterviewerMessage s.currentEvents) s with hs1
  cases hg : SimUser.generateResponse fetched ai
      (extractLatestInterviewerMessage s.currentEvents) s1.simUser with
  | mk resp su =>
    have h2 : TranscriptCountInv { s1 with simUser := su } := simUserSet_inv su s1 h1
    cases resp with
    | none => simpa [hg] using h2
    | some r =>
      by_cases hre : r.isEmpty = true
      · simp only [hg, hre]
        simpa using h2
      · simp only [hg, hre]
        have h3 := logEvent_inv "simulated_user" "Generated response" (.obj .nil)
          { s1 with simUser := su } h2
        have h4 := addToTranscript_inv "simulated_user" r _ h3
        have h5 := outboxSet_inv ((addToTranscript "simulated_user" r
          (logEvent "simulated_user" "Generated response" (.obj .nil)
            { s1 with simUser := su })).outbox ++ [r]) _ h4
        simpa using h5

theorem endRun_inv (s : BenchState) (h : TranscriptCountInv s) :
    TranscriptCountInv (endRun s) := by
  cases hs : s.currentRun with
  | none => simpa [endRun, hs] using h
  | some run =>
    by_cases hrun : s.isRunning = true
    · have hlen := h run hs
      intro run2 hr
      simp only [endRun, hs, hrun] at hr
      simp only [logEvent] at hr
      simp at hr
      simp only [endRun, hs, hrun, logEvent]
      simp [← hr, hlen]
    · have hF : s.isRunning = false := by
        cases hv : s.isRunning
        · rfl
        · exact absurd hv hrun
      simpa [endRun, hs, hF] using h

theorem startRun_inv (runId : String) (createdAt : Nat) (fetched : Option PromptConfig)
    (ip up : String) (s : BenchState) (hrun : s.isRunning = false) :
    TranscriptCountInv (startRun runId createdAt fetched ip up s) := by
  intro run2 hr
  simp only [startRun, hrun, Bool.false_eq_true, if_false, logEvent] at hr ⊢
  simp at hr
  simp [← hr]

theorem applyStep_inv (st : BStep) (s : BenchState) (h : TranscriptCountInv s) :
    TranscriptCountInv (applyStep st s) := by
  cases st with
  | monitor events =>
    show TranscriptCountInv (monitorConversation events s).state
    obtain ⟨sir, ssu, scr, sce, stk, sac, sob, ssp⟩ := s
    cases sir with
    | false => simpa [monitorConversation] using h
    | true =>
      unfold monitorConversation
      have h1 : TranscriptCountInv
          ({ isRunning := true, simUser := ssu, currentRun := scr, currentEvents := events
           , tick := stk, appendCount := sac, outbox := sob
           , savedPayloads := ssp } : BenchState) :=
        fun run hr => h run hr
      have h2 := updateEventLog_inv events _ h1
      by_cases hend : isConversationEnded events = true
      · have h3 := logEvent_inv "system" "Termination cue detected"
          (.obj (.cons "cue" (.str "That completes the interview") .nil)) _ h2
        simpa [hend] using h3
      · by_cases hsr : shouldRespond (updateEventLog events
            { isRunning := true, simUser := ssu, currentRun := scr, currentEvents := events
            , tick := stk, appendCount := sac, outbox := sob
            , savedPayloads := ssp }).simUser.isActive events = true
        · cases hc : (match (updateEventLog events
              { isRunning := true, simUser := ssu, currentRun := scr, currentEvents := events
              , tick := stk, appendCount := sac, outbox := sob
              , savedPayloads := ssp }).currentRun with
              | some run => run.eventLog.getLast?
              | none => none) with
          | none => simpa [hend, hsr, hc] using h2
          | some lastLog =>
            by_cases hbe : (lastLog.action == audioStoppedMarker) = true
            · have hq : lastLog.action = audioStoppedMarker := by simpa using hbe
              simpa [hend, hsr, hc, hq] using h2
            · have hq : ¬ lastLog.action = audioStoppedMarker := by simpa using hbe
              simpa [hend, hsr, hc, hq] using h2
        · simpa [hend, hsr] using h2
  | endTimer => exact endRun_inv s h
  | respTimer fetched ai =>
    show TranscriptCountInv (if s.isRunning then generateSimulatedResponse fetched ai s else s)
    by_cases hrun : s.isRunning = true
    · simpa [hrun] using generateSimulatedResponse_inv fetched ai s h
    · have hF : s.isRunning = false := by
        cases hv : s.isRunning
        · rfl
        · exact absurd hv hrun
      simpa [hF] using h
  | greetTimer =>
    by_cases hrun : s.isRunning = true
    · have h5 := outboxSet_inv (s.outbox ++ ["Hello, I'm ready."]) s h
      simpa [applyStep, hrun] using h5
    · have hF : s.isRunning = false := by
        cases hv : s.isRunning
        · rfl
        · exact absurd hv hrun
      simpa [applyStep, hF] using h

/-- C6: the transcript-to-`conversation_history` translation is
length-preserving; the server derives `num_turns` as exactly the length
of the submitted `conversation_history` array; the ghost count of
`addToTranscript` appends matches the transcript length from `startRun`
on; and every step of the machine preserves that agreement — so
`num_turns` at persistence time equals the `conversation_history`
length, which equals the number of TranscriptEntry appends of the
run. -/
theorem c6_num_turns_agree :
    (∀ r : Run, (saveRunPayload r).conversation_history.length = r.transcript.length)
    ∧ (∀ runId rd createdAt db row db2 (l : List ConvHistEntry),
        rd.conversation_history = some (encodeConvHistory l) →
        saveBenchmarkRun runId rd createdAt db = .ok (row, db2) →
        row.num_turns = l.length)
    ∧ (∀ s runId createdAt fetched ip up, s.isRunning = false →
        TranscriptCountInv (startRun runId createdAt fetched ip up s))
    ∧ (∀ s st, TranscriptCountInv s → TranscriptCountInv (applyStep st s)) := by
  refine ⟨?_, ?_, ?_, ?_⟩
  · intro r
    simp [saveRunPayload]
  · intro runId rd createdAt db row db2 l hch hsave
    unfold saveBenchmarkRun at hsave
    rw [hch] at hsave
    simp only [Option.getD_some] at hsave
    have htr : jsTruthy (encodeConvHistory l) = true := rfl
    rw [htr] at hsave
    simp only [if_true, encodeConvHistory, jsLength] at hsave
    split at hsave
    · exact absurd hsave (by simp)
    · injection hsave with h1
      injection h1 with h1a h1b
      rw [← h1a]
      simp [JsonA_length_ofList]
  · intro s runId createdAt fetched ip up hrun
    exact startRun_inv runId createdAt fetched ip up s hrun
  · intro s st h
    exact applyStep_inv st s h

def c6Run : Run :=
  { id := "r6", startTime := 0, endTime := none
  , transcript := [⟨3, "interviewer", "Hello", 3⟩, ⟨4, "simulated_user", "Hi", 4⟩]
  , eventLog := [], status := "running", processedEventIds := []
  , selectedInterviewerPrompt := "interviewer", selectedUserPrompt := "candidate" }

def c6RunData : RunData :=
  { mode := some "benchmark"
  , conversation_history := some (encodeConvHistory (saveRunPayload c6Run).conversation_history)
  , event_log := some (.arr .nil)
  , interviewer_prompt_id := "ip", simulated_user_prompt_id := "up"
  , interviewer_prompt_name := "interviewer", simulated_user_prompt_name := "candidate" }

theorem c6_num_turns_agree_witness :
    (saveRunPayload c6Run).conversation_history.length = c6Run.transcript.length
    ∧ ((saveBenchmarkRun "r6" c6RunData 9 []).map (fun p => p.1.num_turns)
        = .ok (saveRunPayload c6Run).conversation_history.length)
    ∧ TranscriptCountInv (startRun "r6" 0 none "interviewer" "candidate" initBench)
    ∧ TranscriptCountInv (applyStep .greetTimer
        (startRun "r6" 0 none "interviewer" "candidate" initBench)) := by
  refine ⟨c6_num_turns_agree.1 c6Run, ?_, ?_, ?_⟩
  · have hok : (match saveBenchmarkRun "r6" c6RunData 9 [] with
        | .ok _ => true | .error _ => false) = true := by decide
    cases hsave : saveBenchmarkRun "r6" c6RunData 9 [] with
    | error e => rw [hsave] at hok; simp at hok
    | ok p =>
      have hn := c6_num_turns_agree.2.1 "r6" c6RunData 9 [] p.1 p.2
        (saveRunPayload c6Run).conversation_history rfl (by rw [hsave])
      simp [Except.map, hn]
  · exact c6_num_turns_agree.2.2.1 initBench "r6" 0 none "interviewer" "candidate" rfl
  · exact c6_num_turns_agree.2.2.2 _ .greetTimer
      (c6_num_turns_agree.2.2.1 initBench "r6" 0 none "interviewer" "candidate" rfl)


/-! ## Claim C8: persistence round-trip through the database -/

theorem find?_append_of_none {α : Type} (p : α → Bool) (l1 l2 : List α)
    (h : l1.find? p = none) : (l1 ++ l2).find? p = l2.find? p := by
  induction l1 with
  | nil => rfl
  | cons x xs ih =>
    cases hx : p x with
    | true =>
      rw [List.find?_cons_of_pos _ hx] at h
      cases h
    | false =>
      rw [List.find?_cons_of_neg _ (by simp [hx])] at h
      rw [List.cons_append, List.find?_cons_of_neg _ (by simp [hx])]
      exact ih h

/-- C8: a run saved through the PUT handler and re-read through
`getBenchmarkRun` under the same id yields back exactly the submitted
`conversation_history` (and `event_log`): storing is
`JSON.stringify`, reading is `JSON.parse`, and the round-trip is the
identity on the submitted value (`jsonParse_jsonStringify`). -/
theorem c8_roundtrip (promptId : String → String) (runId : String) (body : PutBody)
    (createdAt : Nat) (db db2 : List DbRow) (ch el : Json)
    (hch : body.conversation_history = some ch)
    (hel : body.event_log = some el)
    (hput : putBenchmarkRun promptId runId body createdAt db = ((200, none), db2)) :
    ∃ rec, getBenchmarkRun runId db2 = .ok rec ∧
      rec.conversation_history = ch ∧ rec.event_log = el := by
  unfold putBenchmarkRun at hput
  by_cases hval : (jsFalsyOpt body.conversation_history || jsFalsyOpt body.event_log) = true
  · rw [if_pos hval] at hput
    simp at hput
  · rw [if_neg hval] at hput
    simp only [Bool.or_eq_true, not_or] at hval
    obtain ⟨hv1, hv2⟩ := hval
    have hchT : jsTruthy ch = true := by
      rw [hch] at hv1
      simp only [jsFalsyOpt] at hv1
      simpa using hv1
    have helT : jsTruthy el = true := by
      rw [hel] at hv2
      simp only [jsFalsyOpt] at hv2
      simpa using hv2
    dsimp only at hput
    split at hput
    rotate_left
    · simp at hput
    rename_i fst db' heq
    · simp only [Prod.mk.injEq] at hput
      obtain ⟨-, hdb2⟩ := hput
      subst hdb2
      unfold saveBenchmarkRun at heq
      simp only [hch, hel, Option.getD_some, hchT, helT, if_true] at heq
      split at heq
      · cases heq
      · split at heq
        · cases heq
        · rename_i hdup
          injection heq with hpair
          injection hpair with hrow hdb
          subst hdb
          subst hrow
          unfold getBenchmarkRun
          have hnone : db.find? (fun r => r.run_id == runId) = none := by
            rw [List.find?_eq_none]
            intro x hx hb
            exact hdup (List.any_eq_true.mpr ⟨x, hx, hb⟩)
          rw [find?_append_of_none _ db _ hnone]
          rw [List.find?_cons_of_pos _ (by simp)]
          simp only [jsonParse_jsonStringify, parseOptCol]
          exact ⟨_, rfl, rfl, rfl⟩


def c8Ch : Json :=
  .arr (.cons (.obj (.cons "speaker" (.str "interviewer")
    (.cons "content" (.str "Tell me about yourself.") .nil))) .nil)

def c8El : Json :=
  .arr (.cons (.obj (.cons "source" (.str "system")
    (.cons "action" (.str "Benchmark run started") .nil))) .nil)

def c8Body : PutBody :=
  { mode := some "benchmark", conversation_history := some c8Ch, event_log := some c8El
  , interviewer_prompt_name := some "interviewer"
  , simulated_user_prompt_name := some "candidate" }

theorem c8_roundtrip_witness :
    ∃ rec, getBenchmarkRun "run-8"
        (putBenchmarkRun (fun _ => "pid") "run-8" c8Body 7 []).2 = .ok rec ∧
      rec.conversation_history = c8Ch ∧ rec.event_log = c8El :=
  c8_roundtrip (fun _ => "pid") "run-8" c8Body 7 []
    (putBenchmarkRun (fun _ => "pid") "run-8" c8Body 7 []).2 c8Ch c8El rfl rfl (by decide)
